import Mathlib

/-!
Verification development for the BillCheck backend core.

This file gives a shallow embedding, in Lean 4, of the core components of
the repository:

* the price assessment engine (`backend/app/api/routes/compare.py`:
  `assess_price_cms`, `assess_price_mock`),
* the description-match validator and the CMS reference-price resolver with
  its cache (`backend/app/services/cms_data_service.py`),
* the cascading line-item extractor
  (`backend/app/services/pdf_extractor.py`).

Python floats are modelled as rationals (`ℚ`); `round(x, n)` is modelled by
rounding `x * 10^n` to the nearest integer (rounding of exact ties follows
Mathlib's `round`; no verified statement below depends on the tie rule).
Python strings are `String`, `None`-able values are `Option`, and Python
truthiness of a value `v` (`if v:`) is made explicit at each use site
(`none`/`""`/`0` are falsy).  Network access and the on-disk cache are
modelled by explicit parameters: an `Env` of dataset rows indexed by code,
a `Cache` of association lists carrying write timestamps, and an explicit
current time; every operation returns its result together with the updated
cache and the number of network fetches it performed.
-/

namespace BillCheck

/-! ### Rounding helpers (Python `round(x, 1)` / `round(x, 2)` on `ℚ`) -/

/-- Model of Python `round(x, 1)`: round to one decimal place. -/
def round1 (q : ℚ) : ℚ := (round (q * 10) : ℤ) / 10

/-- Model of Python `round(x, 2)`: round to two decimal places. -/
def round2 (q : ℚ) : ℚ := (round (q * 100) : ℤ) / 100

/-- Truthiness of an optional number, as in Python `if v:` where `v` is
`None` or a float (`None` and `0.0` are falsy). -/
def qTruthy : Option ℚ → Bool
  | none => false
  | some x => x != 0

/-- Truthiness of an optional string (`None` and `""` are falsy). -/
def strTruthy : Option String → Bool
  | none => false
  | some s => !s.isEmpty

/-! ### Data model: reference price records

`PhysData` embeds the payload built by
`CMSDataService._aggregate_physician_data`, `DrugData` the payload built by
`CMSDataService._process_drug_data`, and `FacilityData` the payload built
by `CMSDataService._aggregate_outpatient_data` (only the field read by
`assess_price_cms` and `extract_cms_summary` is needed for the claims).
Statistics blocks `{min, max, median, average, count}` are embedded
structurally. -/

structure StatsBlock where
  min : ℚ
  max : ℚ
  median : ℚ
  average : ℚ
  count : ℕ
  deriving Repr, DecidableEq

/-- Raw row of the physician-services dataset: the fields the service
reads (`Avg_Mdcr_Pymt_Amt`, `Avg_Sbmtd_Chrg`, `HCPCS_Desc`), after
`_safe_float` conversion. -/
structure PhysRecord where
  avgMdcrPymtAmt : Option ℚ
  avgSbmtdChrg : Option ℚ
  hcpcsDesc : Option String
  deriving Repr, DecidableEq

/-- Aggregated physician fee payload (`_aggregate_physician_data`). -/
structure PhysData where
  hcpcsCode : String
  description : String
  medicarePayment : StatsBlock
  submittedCharges : Option StatsBlock
  cachedAt : ℤ
  deriving Repr, DecidableEq

/-- Raw row of the Part B drug-spending dataset: the fields
`_process_drug_data` reads, after `_safe_float` conversion. -/
structure DrugRecord where
  hcpcsCd : Option String
  hcpcsDesc : Option String
  brndName : Option String
  gnrcName : Option String
  avgAspPrice : Option ℚ
  avgSpndngPerUnit : Option ℚ
  totClms : Option ℚ
  totBenes : Option ℚ
  deriving Repr, DecidableEq

/-- Drug pricing payload (`_process_drug_data`). -/
structure DrugData where
  hcpcsCode : String
  originalCode : Option String
  description : Option String
  brandName : Option String
  genericName : Option String
  aspPrice : Option ℚ
  avgSpendingPerUnit : Option ℚ
  totalClaims : Option ℚ
  totalBenes : Option ℚ
  cachedAt : ℤ
  deriving Repr, DecidableEq

/-- Facility fee payload: only the `facility_payment.average` field is ever
read by the assessment engine (the service never produces such a payload,
`facility_fee` is always `None`; the reader exists in `assess_price_cms`). -/
structure FacilityData where
  facilityPaymentAverage : Option ℚ
  deriving Repr, DecidableEq

/-! ### Description-match validator (`_calculate_description_match`) -/

/-- The `match_type` values produced by `_calculate_description_match`
(`partial` is spelled `partialMatch` here). -/
inductive MatchType where
  | good
  | partialMatch
  | mismatch
  | categoryMismatch
  | unknown
  deriving Repr, DecidableEq

/-- Result of `_calculate_description_match`: `score` (0-100),
`match_type`, and the human-readable `reason`. -/
structure MatchResult where
  score : ℕ
  matchType : MatchType
  reason : String
  deriving Repr, DecidableEq

/-- ASCII lowercasing of one character (Python `str.lower`, restricted to
ASCII, which is all the keyword vocabularies contain). -/
def lowerChar (c : Char) : Char :=
  if 'A' ≤ c ∧ c ≤ 'Z' then Char.ofNat (c.toNat + 32) else c

/-- Python `re.findall(r'[a-z]+', text)`: maximal runs of lowercase
letters.  The accumulator holds the current run, reversed. -/
def lowerRuns : List Char → List Char → List String
  | [], cur => if cur.isEmpty then [] else [String.mk cur.reverse]
  | c :: cs, cur =>
    if 'a' ≤ c ∧ c ≤ 'z' then lowerRuns cs (c :: cur)
    else if cur.isEmpty then lowerRuns cs []
    else String.mk cur.reverse :: lowerRuns cs []

/-- `_normalize_text`: lowercase the text and return the set of words
(maximal `[a-z]+` runs). -/
def normalize_text (text : String) : Finset String :=
  (lowerRuns (text.toList.map lowerChar) []).toFinset

/-- `DRUG_KEYWORDS` from `cms_data_service.py`. -/
def DRUG_KEYWORDS : Finset String :=
  ({"injection", "infusion", "vaccine", "medication", "drug", "dose",
    "mg", "ml", "mcg", "units", "per", "vial", "tablet", "capsule",
    "ketamine", "lidocaine", "morphine", "fentanyl", "propofol", "antibiotic",
    "steroid", "anesthetic", "sedation", "analgesic", "saline", "dextrose"} : Finset String)

/-- `SURGERY_KEYWORDS` from `cms_data_service.py`. -/
def SURGERY_KEYWORDS : Finset String :=
  ({"incision", "excision", "resection", "repair", "removal", "insertion",
    "implant", "graft", "transplant", "amputation", "biopsy", "drainage",
    "reconstruction", "revision", "exploration", "dissection", "suture"} : Finset String)

/-- `BODY_PART_KEYWORDS` from `cms_data_service.py`. -/
def BODY_PART_KEYWORDS : Finset String :=
  ({"scrotum", "scrotal", "testis", "testicle", "penis", "penile", "prostate",
    "uterus", "uterine", "ovary", "ovarian", "vaginal", "cervix", "cervical",
    "breast", "mammary", "heart", "cardiac", "lung", "pulmonary", "liver",
    "hepatic", "kidney", "renal", "brain", "cerebral", "spine", "spinal",
    "knee", "hip", "shoulder", "elbow", "wrist", "ankle", "foot", "hand"} : Finset String)

/-- The stopword list of `_calculate_description_match`. -/
def matchStopwords : Finset String :=
  ({"the", "a", "an", "of", "for", "to", "in", "on", "with", "and", "or", "per"} : Finset String)

/-- Embedding of `_calculate_description_match(bill_desc, cms_desc)`.
The score on the Jaccard branch is `int(overlap * 100)` computed exactly
(floor of the rational), and Python set truthiness is `Finset.Nonempty`. -/
def calculate_description_match (billDesc cmsDesc : String) : MatchResult :=
  if billDesc.isEmpty ∨ cmsDesc.isEmpty then
    { score := 50, matchType := .unknown, reason := "Missing description" }
  else
    let billWords := normalize_text billDesc
    let cmsWords := normalize_text cmsDesc
    if ¬billWords.Nonempty ∨ ¬cmsWords.Nonempty then
      { score := 50, matchType := .unknown, reason := "Empty description after normalization" }
    else
      let billIsDrug := (billWords ∩ DRUG_KEYWORDS).Nonempty
      let cmsIsDrug := (cmsWords ∩ DRUG_KEYWORDS).Nonempty
      let billIsSurgery := (billWords ∩ SURGERY_KEYWORDS).Nonempty
      let cmsIsSurgery := (cmsWords ∩ SURGERY_KEYWORDS).Nonempty
      if billIsDrug ∧ cmsIsSurgery ∧ ¬cmsIsDrug then
        { score := 10, matchType := .categoryMismatch,
          reason := "Bill describes a drug/medication but CMS code is for surgery" }
      else if billIsSurgery ∧ cmsIsDrug ∧ ¬billIsDrug then
        { score := 10, matchType := .categoryMismatch,
          reason := "Bill describes surgery but CMS code is for a drug" }
      else
        let billBodyParts := billWords ∩ BODY_PART_KEYWORDS
        let cmsBodyParts := cmsWords ∩ BODY_PART_KEYWORDS
        if billBodyParts.Nonempty ∧ cmsBodyParts.Nonempty ∧
            ¬(billBodyParts ∩ cmsBodyParts).Nonempty then
          { score := 15, matchType := .categoryMismatch, reason := "Body part mismatch" }
        else
          let commonWords := billWords ∩ cmsWords
          let meaningfulCommon := commonWords \ matchStopwords
          let meaningfulBill := billWords \ matchStopwords
          let meaningfulCms := cmsWords \ matchStopwords
          if ¬meaningfulBill.Nonempty ∨ ¬meaningfulCms.Nonempty then
            { score := 50, matchType := .unknown, reason := "No meaningful words to compare" }
          else
            let unionSize := (meaningfulBill ∪ meaningfulCms).card
            let score := meaningfulCommon.card * 100 / unionSize
            if 1 ≤ meaningfulCommon.card ∨ 15 ≤ score then
              if 40 ≤ score then
                { score := score, matchType := .good, reason := "Good word overlap" }
              else
                { score := score, matchType := .partialMatch, reason := "Partial match" }
            else
              { score := score, matchType := .mismatch,
                reason := "No common terms found between descriptions" }

/-- Payload of `get_combined_pricing`.  The service never produces a
facility fee (`facility_fee` is always `None` pending an APC crosswalk),
but the field exists and is read downstream. -/
structure CombinedResult where
  hcpcsCode : String
  physicianFee : Option PhysData
  facilityFee : Option FacilityData
  drugPricing : Option DrugData
  hasData : Bool
  hasReliableData : Bool
  descriptionMatch : Option MatchResult
  cachedAt : ℤ
  deriving Repr, DecidableEq

/-! ### Reference price resolver (`CMSDataService`)

The network boundary (`_fetch_from_cms`) is modelled by an `Env` of dataset
rows indexed by code: one `Env` application is one network fetch (`None`
responses and empty responses behave identically at every call site, both
being falsy, so a fetch yields a plain list).  The on-disk JSON cache is
modelled by association lists `key ↦ (payload, mtime)`; the three cache key
namespaces used by the service (`"pfs:…"`, `"drug:…"`,
`"combined_v3:…"`) are md5-distinct in the source, so they are kept as
three separate fields of `Cache`.  The key `"combined_v3_validated:…"` is
computed by `get_combined_pricing` but never read or written (both accesses
are guarded by `not bill_description`), so it needs no field.  Timestamps
are integers (hours); `CACHE_EXPIRY_HOURS = 24`. -/

/-- Network boundary: dataset rows by HCPCS code. -/
structure Env where
  physRecords : String → List PhysRecord
  drugRecords : String → List DrugRecord

def CACHE_EXPIRY_HOURS : ℤ := 24

/-- One cache namespace: list of `(code, payload, mtime)`, newest first
(a write prepends, which is overwrite semantics for `find?`). -/
abbrev CacheList (α : Type) := List (String × α × ℤ)

/-- The whole cache directory. -/
structure Cache where
  pfs : CacheList PhysData
  drug : CacheList DrugData
  comb : CacheList CombinedResult
  deriving DecidableEq

/-- `_is_cache_valid`: entry is younger than 24 hours
(`mtime > now - CACHE_EXPIRY_HOURS`). -/
def is_cache_valid (now mtime : ℤ) : Bool := now - CACHE_EXPIRY_HOURS < mtime

/-- `_read_cache`: return the payload when a valid entry exists. -/
def read_cache {α : Type} (l : CacheList α) (now : ℤ) (key : String) : Option α :=
  match l.find? (fun e => e.1 == key) with
  | some e => if is_cache_valid now e.2.2 then some e.2.1 else none
  | none => none

/-- `_write_cache`: store the payload under the key with the current time. -/
def write_cache {α : Type} (l : CacheList α) (key : String) (v : α) (now : ℤ) : CacheList α :=
  (key, v, now) :: l

/-- Statistics over a non-empty sorted list
(`{min, max, median = sorted[n // 2], average, count}`). -/
def statsOf (payments : List ℚ) : StatsBlock :=
  let sorted := payments.mergeSort (fun a b => a ≤ b)
  { min := sorted.headD 0
    max := sorted.getLastD 0
    median := sorted.getD (sorted.length / 2) 0
    average := payments.sum / payments.length
    count := payments.length }

/-- `_aggregate_physician_data`: keep positive payments and charges, take
the first truthy description, and build the payload; `None` when no
positive payment survives.  (`if payment and payment > 0` is equivalent to
`payment` being present and positive.) -/
def aggregate_physician_data (hcpcs_code : String) (records : List PhysRecord)
    (now : ℤ) : Option PhysData :=
  let payments := records.filterMap (fun r =>
    match r.avgMdcrPymtAmt with
    | some p => if 0 < p then some p else none
    | none => none)
  let submitted_charges := records.filterMap (fun r =>
    match r.avgSbmtdChrg with
    | some p => if 0 < p then some p else none
    | none => none)
  let description : Option String := (records.filterMap (fun r =>
    if strTruthy r.hcpcsDesc then r.hcpcsDesc else none)).head?
  if payments.isEmpty then none
  else some
    { hcpcsCode := hcpcs_code
      description := description.getD ("Service " ++ hcpcs_code)
      medicarePayment := statsOf payments
      submittedCharges := if submitted_charges.isEmpty then none
        else some (statsOf submitted_charges)
      cachedAt := now }

/-- `get_physician_fee_by_hcpcs`: cache read, fetch, aggregate, cache
write on a non-`None` result.  Returns the payload, the updated `pfs`
cache namespace, and the number of network fetches. -/
def get_physician_fee_by_hcpcs (env : Env) (hcpcs_code : String) (now : ℤ)
    (c : CacheList PhysData) : Option PhysData × CacheList PhysData × ℕ :=
  match read_cache c now hcpcs_code with
  | some cached => (some cached, c, 0)
  | none =>
    let data := env.physRecords hcpcs_code
    if data.isEmpty then (none, c, 1)
    else
      match aggregate_physician_data hcpcs_code data now with
      | none => (none, c, 1)
      | some result => (some result, write_cache c hcpcs_code result now, 1)

/-- `CODE_CROSSWALK` (new HCPCS code ↦ predecessor still in the dataset). -/
def CODE_CROSSWALK : String → Option String := fun code =>
  if code = "J2003" then some "J2001"
  else if code = "J2004" then some "J2001"
  else none

/-- `_process_drug_data`: use the first record; `None` when both the ASP
price and the average spending are falsy (`None` or `0.0`). -/
def process_drug_data (hcpcs_code : String) (records : List DrugRecord)
    (now : ℤ) : Option DrugData :=
  match records.head? with
  | none => none
  | some record =>
    if ¬qTruthy record.avgAspPrice ∧ ¬qTruthy record.avgSpndngPerUnit then none
    else some
      { hcpcsCode := hcpcs_code
        originalCode := record.hcpcsCd
        description := record.hcpcsDesc
        brandName := record.brndName
        genericName := record.gnrcName
        aspPrice := record.avgAspPrice
        avgSpendingPerUnit := record.avgSpndngPerUnit
        totalClaims := record.totClms
        totalBenes := record.totBenes
        cachedAt := now }

/-- `get_drug_pricing`: cache read, fetch (with one crosswalk retry when the
first fetch comes back empty), process, cache write on a non-`None`
result. -/
def get_drug_pricing (env : Env) (hcpcs_code : String) (now : ℤ)
    (c : CacheList DrugData) : Option DrugData × CacheList DrugData × ℕ :=
  match read_cache c now hcpcs_code with
  | some cached => (some cached, c, 0)
  | none =>
    let data0 := env.drugRecords hcpcs_code
    let fetched : List DrugRecord × ℕ :=
      if data0.isEmpty then
        match CODE_CROSSWALK hcpcs_code with
        | some old_code => (env.drugRecords old_code, 2)
        | none => (data0, 1)
      else (data0, 1)
    let data := fetched.1
    let ncalls := fetched.2
    if data.isEmpty then (none, c, ncalls)
    else
      match process_drug_data hcpcs_code data now with
      | none => (none, c, ncalls)
      | some result => (some result, write_cache c hcpcs_code result now, ncalls)

/-- `_is_drug_code`: first character (uppercased) in `{J, Q}`. -/
def is_drug_code (hcpcs_code : String) : Bool :=
  match hcpcs_code.toList with
  | [] => false
  | c :: _ => let p := if 'a' ≤ c ∧ c ≤ 'z' then Char.ofNat (c.toNat - 32) else c
              p == 'J' || p == 'Q'

/-- Core of `get_combined_pricing` after the cache check: route to the drug
or physician dataset, validate the description when both a bill description
and a reference description are truthy, compute `has_data` and
`has_reliable_data`, and write the combined cache only when data was found
and no bill description was supplied. -/
def compute_combined_pricing (env : Env) (hcpcs_code : String)
    (bill_description : Option String) (now : ℤ) (c : Cache) :
    CombinedResult × Cache × ℕ :=
  let step : (Option PhysData × Option DrugData) × Cache × ℕ :=
    if is_drug_code hcpcs_code then
      let r := get_drug_pricing env hcpcs_code now c.drug
      ((none, r.1), { c with drug := r.2.1 }, r.2.2)
    else
      let r := get_physician_fee_by_hcpcs env hcpcs_code now c.pfs
      ((r.1, none), { c with pfs := r.2.1 }, r.2.2)
  let physician_data := step.1.1
  let drug_data := step.1.2
  let c1 := step.2.1
  let ncalls := step.2.2
  let cms_description : Option String :=
    match physician_data with
    | some p => some p.description
    | none =>
      match drug_data with
      | some d => d.description
      | none => none
  let description_match : Option MatchResult :=
    if strTruthy bill_description ∧ strTruthy cms_description then
      some (calculate_description_match (bill_description.getD "")
        (cms_description.getD ""))
    else none
  let has_data := physician_data.isSome || drug_data.isSome
  let has_reliable_data : Bool :=
    if has_data then
      match description_match with
      | none => true
      | some m =>
        m.matchType == MatchType.good || m.matchType == MatchType.partialMatch ||
          m.matchType == MatchType.unknown
    else false
  let result : CombinedResult :=
    { hcpcsCode := hcpcs_code
      physicianFee := physician_data
      facilityFee := none
      drugPricing := drug_data
      hasData := has_data
      hasReliableData := has_reliable_data
      descriptionMatch := description_match
      cachedAt := now }
  let c2 := if has_data ∧ ¬strTruthy bill_description then
      { c1 with comb := write_cache c1.comb hcpcs_code result now }
    else c1
  (result, c2, ncalls)

/-- `get_combined_pricing`: the cached payload is returned before any
fetch when no bill description is supplied and a valid combined cache
entry exists; otherwise the pricing is computed. -/
def get_combined_pricing (env : Env) (hcpcs_code : String)
    (bill_description : Option String) (now : ℤ) (c : Cache) :
    CombinedResult × Cache × ℕ :=
  if strTruthy bill_description then
    compute_combined_pricing env hcpcs_code bill_description now c
  else
    match read_cache c.comb now hcpcs_code with
    | some cached => (cached, c, 0)
    | none => compute_combined_pricing env hcpcs_code bill_description now c

/-- Entry of the map returned by `get_pricing_for_codes`: either the fixed
stub recorded for a skipped revenue code, or a full combined payload. -/
inductive BatchEntry where
  | revenueStub (hcpcs_code : String)
  | combined (r : CombinedResult)
  deriving Repr, DecidableEq

/-- The `has_data` field of a batch entry (`False` on the revenue stub). -/
def BatchEntry.hasData : BatchEntry → Bool
  | .revenueStub _ => false
  | .combined r => r.hasData

/-- The `has_reliable_data` field of a batch entry (`False` on the stub). -/
def BatchEntry.hasReliableData : BatchEntry → Bool
  | .revenueStub _ => false
  | .combined r => r.hasReliableData

/-- One iteration of the `get_pricing_for_codes` loop: skip falsy codes,
record a stub for 4-digit codes starting with `'0'` (revenue codes) with
no lookup at all, and otherwise delegate to `get_combined_pricing`. -/
def pricing_for_code_step (env : Env) (now : ℤ) (c : Cache)
    (code : String) (description : Option String) :
    Option (String × BatchEntry) × Cache × ℕ :=
  if code.isEmpty then (none, c, 0)
  else if code.length = 4 ∧ code.toList.headD ' ' = '0' then
    (some (code, BatchEntry.revenueStub code), c, 0)
  else
    let r := get_combined_pricing env code description now c
    (some (code, BatchEntry.combined r.1), r.2.1, r.2.2)

/-- `get_pricing_for_codes`: fold the per-code step over the
`(code, description)` pairs, accumulating the result map (an association
list), the cache, and the total number of network fetches. -/
def get_pricing_for_codes (env : Env) (pairs : List (String × Option String))
    (now : ℤ) (c : Cache) : List (String × BatchEntry) × Cache × ℕ :=
  match pairs with
  | [] => ([], c, 0)
  | (code, description) :: rest =>
    let r := pricing_for_code_step env now c code description
    let rec' := get_pricing_for_codes env rest now r.2.1
    ((r.1.toList ++ rec'.1), rec'.2.1, r.2.2 + rec'.2.2)


/-! ### Price assessment engine (`compare.py`) -/

/-- The `status` strings of a price assessment. -/
inductive PriceStatus where
  | low
  | fair
  | high
  | veryHigh
  | unknown
  deriving Repr, DecidableEq

/-- Fair-price selection of `assess_price_cms`: drug average spending per
unit, else drug ASP price, else facility average payment, else physician
average payment (each gate is a Python truthiness test). -/
def select_fair_price_cms (cms_data : CombinedResult) : Option ℚ :=
  let fromDrug : Option ℚ :=
    match cms_data.drugPricing with
    | some drug =>
      if qTruthy drug.avgSpendingPerUnit then drug.avgSpendingPerUnit
      else if qTruthy drug.aspPrice then drug.aspPrice
      else none
    | none => none
  match fromDrug with
  | some v => some v
  | none =>
    let fromFacility : Option ℚ :=
      match cms_data.facilityFee with
      | some facility =>
        if qTruthy facility.facilityPaymentAverage then facility.facilityPaymentAverage
        else none
      | none => none
    match fromFacility with
    | some v => some v
    | none =>
      match cms_data.physicianFee with
      | some physician =>
        if physician.medicarePayment.average != 0 then
          some physician.medicarePayment.average
        else none
      | none => none

/-- `assess_price_cms(billed, cms_data)`: returns
`(status, variance_percent, potential_savings, fair_price)`.  Bands against
the authoritative data: `≤ fair` low, `≤ 1.5×` fair, `≤ 2.0×` high, above
that very high; variance is rounded to one decimal and savings to two. -/
def assess_price_cms (billed : ℚ) (cms_data : Option CombinedResult) :
    PriceStatus × Option ℚ × Option ℚ × Option ℚ :=
  match cms_data with
  | none => (.unknown, none, none, none)
  | some d =>
    match select_fair_price_cms d with
    | none => (.unknown, none, none, none)
    | some fair_price =>
      if billed ≤ fair_price then
        (.low, some (round1 ((billed - fair_price) / fair_price * 100)), some 0,
          some fair_price)
      else if billed ≤ fair_price * 1.5 then
        (.fair, some (round1 ((billed - fair_price) / fair_price * 100)), some 0,
          some fair_price)
      else if billed ≤ fair_price * 2.0 then
        (.high, some (round1 ((billed - fair_price) / fair_price * 100)),
          some (round2 (billed - fair_price)), some fair_price)
      else
        (.veryHigh, some (round1 ((billed - fair_price) / fair_price * 100)),
          some (round2 (billed - fair_price)), some fair_price)

/-- `assess_price_mock(billed, gross_charge, negotiated_rate)`: the fair
price is the negotiated rate; bands are `≤ fair` low, `≤ 1.2×` fair,
`≤ 1.5×` high, above that very high. -/
def assess_price_mock (billed : ℚ) (gross_charge negotiated_rate : Option ℚ) :
    PriceStatus × Option ℚ × Option ℚ × Option ℚ :=
  match gross_charge, negotiated_rate with
  | some _, some rate =>
    let fair_price := rate
    if billed ≤ fair_price then
      (.low, some (round1 ((billed - fair_price) / fair_price * 100)), some 0,
        some fair_price)
    else if billed ≤ fair_price * 1.2 then
      (.fair, some (round1 ((billed - fair_price) / fair_price * 100)), some 0,
        some fair_price)
    else if billed ≤ fair_price * 1.5 then
      (.high, some (round1 ((billed - fair_price) / fair_price * 100)),
        some (round2 (billed - fair_price)), some fair_price)
    else
      (.veryHigh, some (round1 ((billed - fair_price) / fair_price * 100)),
        some (round2 (billed - fair_price)), some fair_price)
  | _, _ => (.unknown, none, none, none)


/-! ### Line-item extractor (`pdf_extractor.py`)

The pdfplumber boundary is modelled by giving `extract_line_items_regex`
the detected table rows (lists of optional cell strings) and the
concatenated page text.  The regular expressions of the source are
implemented as explicit scanners over `List Char`; scanners that can
consume more than one character per step take a fuel argument which the
wrappers instantiate with the input length (every step consumes at least
one character, so this computes the exact scan). -/

/-- A billing line item. -/
structure LineItem where
  code : Option String
  description : String
  quantity : ℕ
  amount : ℚ
  deriving Repr, DecidableEq

/-- Word characters for `\b` boundaries (`[A-Za-z0-9_]`). -/
def isWordChar (c : Char) : Bool := c.isAlphanum || c == '_'

/-- Longest prefix of characters satisfying `p`, with the rest. -/
def takeRun (p : Char → Bool) : List Char → List Char × List Char
  | [] => ([], [])
  | c :: cs =>
    if p c then
      let r := takeRun p cs
      (c :: r.1, r.2)
    else ([], c :: cs)

/-- Numeric value of a digit string. -/
def digitsVal (ds : List Char) : ℕ := ds.foldl (fun a c => 10 * a + (c.toNat - 48)) 0

/-- Python `str.strip()`. -/
def pyStrip (cs : List Char) : List Char :=
  ((cs.dropWhile (·.isWhitespace)).reverse.dropWhile (·.isWhitespace)).reverse

/-- Python `re.sub(r'\s+', ' ', …)`: collapse whitespace runs to one
space.  The flag records whether the previous character was whitespace. -/
def collapseWsAux : Bool → List Char → List Char
  | _, [] => []
  | prevWs, c :: cs =>
    if c.isWhitespace then
      if prevWs then collapseWsAux true cs else ' ' :: collapseWsAux true cs
    else c :: collapseWsAux false cs

def collapseWs (cs : List Char) : List Char := collapseWsAux false cs

/-- Index of the first occurrence of `pat` in the text (Python
`str.find`), counting from `pos`. -/
def firstOccurFrom (pat : List Char) : List Char → ℕ → Option ℕ
  | [], pos => if pat.isEmpty then some pos else none
  | c :: cs, pos =>
    if pat.isPrefixOf (c :: cs) then some pos else firstOccurFrom pat cs (pos + 1)

/-- Python `pat in text`. -/
def containsSub (pat cs : List Char) : Bool := (firstOccurFrom pat cs 0).isSome

/-- Python `str.replace(pat, '')` for a non-empty pattern: drop
non-overlapping occurrences left to right. -/
def replaceSub (pat : List Char) : ℕ → List Char → List Char
  | 0, cs => cs
  | _ + 1, [] => []
  | fuel + 1, c :: cs =>
    if pat.isPrefixOf (c :: cs) ∧ ¬pat.isEmpty then
      replaceSub pat fuel (List.drop pat.length (c :: cs))
    else c :: replaceSub pat fuel cs

/-- Match of `\$?\s*([\d,]+\.\d{2})` at the head of the list: returns the
captured value and the total number of characters consumed.  (`[\d,]+` is
greedy; shortening it cannot help because the following character must be
`'.'`, which is outside the class.) -/
def matchAmountAt (cs : List Char) : Option (ℚ × ℕ) :=
  let s1 : List Char × ℕ := match cs with
    | '$' :: r => (r, 1)
    | _ => (cs, 0)
  let w := takeRun (·.isWhitespace) s1.1
  let run := takeRun (fun c => c.isDigit || c == ',') w.2
  if run.1.isEmpty then none
  else
    match run.2 with
    | '.' :: d1 :: d2 :: _ =>
      if d1.isDigit ∧ d2.isDigit then
        let cents := 10 * (d1.toNat - 48) + (d2.toNat - 48)
        some (((digitsVal (run.1.filter (·.isDigit)) * 100 + cents : ℕ) : ℚ) / 100,
          s1.2 + w.1.length + run.1.length + 3)
      else none
    | _ => none

/-- Scanner for `re.finditer(r'\$?\s*([\d,]+\.\d{2})', …)`: all
non-overlapping matches with their start positions. -/
def scanAmountsFrom : ℕ → ℕ → List Char → List (ℚ × ℕ)
  | 0, _, _ => []
  | _ + 1, _, [] => []
  | fuel + 1, pos, c :: cs =>
    match matchAmountAt (c :: cs) with
    | some (v, k) => (v, pos) :: scanAmountsFrom fuel (pos + k) (List.drop k (c :: cs))
    | none => scanAmountsFrom fuel (pos + 1) cs

/-- `re.findall(r'\$?\s*([\d,]+\.\d{2})', …)` with positions. -/
def findAmountsPos (cs : List Char) : List (ℚ × ℕ) := scanAmountsFrom cs.length 0 cs

/-- `re.findall(r'\$?\s*([\d,]+\.\d{2})', …)` as values. -/
def findAmounts (cs : List Char) : List ℚ := (findAmountsPos cs).map (·.1)

/-- `re.sub(r'\$?\s*[\d,]+\.\d{2}', '', …)`: drop every amount match. -/
def removeAmountsFrom : ℕ → List Char → List Char
  | 0, cs => cs
  | _ + 1, [] => []
  | fuel + 1, c :: cs =>
    match matchAmountAt (c :: cs) with
    | some (_, k) => removeAmountsFrom fuel (List.drop k (c :: cs))
    | none => c :: removeAmountsFrom fuel cs

def removeAmounts (cs : List Char) : List Char := removeAmountsFrom cs.length cs

/-- Boundary test after a token: the next character, if any, must not be
a word character. -/
def boundaryAfter : List Char → Bool
  | [] => true
  | r :: _ => !isWordChar r

/-- Match of `[A-Z]\d{4}` at the head with a `\b` after it (the `\b`
before it is the caller's `prevWord` check). -/
def matchHcpcsAt : List Char → Option (String × ℕ)
  | c :: d1 :: d2 :: d3 :: d4 :: rest =>
    if ('A' ≤ c ∧ c ≤ 'Z') ∧ d1.isDigit ∧ d2.isDigit ∧ d3.isDigit ∧ d4.isDigit ∧
        boundaryAfter rest then
      some (String.mk [c, d1, d2, d3, d4], 5)
    else none
  | _ => none

/-- Match of `\d{5}` at the head with a `\b` after it: the maximal digit
run must have length exactly 5 (a boundary cannot fall inside a run). -/
def matchCpt5At (cs : List Char) : Option (String × ℕ) :=
  let run := takeRun (·.isDigit) cs
  if run.1.length = 5 ∧ boundaryAfter run.2 then
    some (String.mk run.1, 5)
  else none

/-- Match of `[A-Z]\d{4}|\d{5}` at the head (alternation order as in the
source; the alternatives start with disjoint character classes). -/
def matchCodeAt (cs : List Char) : Option (String × ℕ) :=
  match matchHcpcsAt cs with
  | some r => some r
  | none => matchCpt5At cs

/-- Match of `0\d{3}` at the head with a `\b` after it. -/
def matchRevenueAt (cs : List Char) : Option (String × ℕ) :=
  let run := takeRun (·.isDigit) cs
  if run.1.length = 4 ∧ run.1.headD ' ' = '0' ∧ boundaryAfter run.2 then
    some (String.mk run.1, 4)
  else none

/-- Generic `re.findall`-style scanner over boundary-anchored token
matchers: left to right, non-overlapping, resuming after each match.
`prevWord` tracks whether the previous character is a word character
(the `\b` before a token requires it not to be). -/
def scanTokensFrom (m : List Char → Option (String × ℕ)) :
    ℕ → Bool → ℕ → List Char → List (String × ℕ)
  | 0, _, _, _ => []
  | _ + 1, _, _, [] => []
  | fuel + 1, prevWord, pos, c :: cs =>
    match (if prevWord then none else m (c :: cs)) with
    | some (tok, k) =>
      (tok, pos) :: scanTokensFrom m fuel true (pos + k) (List.drop k (c :: cs))
    | none => scanTokensFrom m fuel (isWordChar c) (pos + 1) cs

/-- `re.findall(r'\b([A-Z]\d{4})\b', …)`. -/
def scanHcpcs (cs : List Char) : List String :=
  (scanTokensFrom matchHcpcsAt cs.length false 0 cs).map (·.1)

/-- `re.findall(r'\b(\d{5})\b', …)`. -/
def scanCpt5 (cs : List Char) : List String :=
  (scanTokensFrom matchCpt5At cs.length false 0 cs).map (·.1)

/-- `re.finditer(r'\b([A-Z]\d{4}|\d{5})\b', …)`: tokens with their start
positions (every token has length 5). -/
def scanCodesPos (cs : List Char) : List (String × ℕ) :=
  scanTokensFrom matchCodeAt cs.length false 0 cs

/-- `re.search(r'\b(0\d{3})\b', …)`. -/
def searchRevenue (cs : List Char) : Option String :=
  ((scanTokensFrom matchRevenueAt cs.length false 0 cs).map (·.1)).head?


/-- Match of `\bHC\s+` (IGNORECASE) at the head: `H`/`h`, `C`/`c`, then at
least one whitespace character. -/
def matchHCAt : List Char → Option (String × ℕ)
  | h :: c2 :: rest =>
    if (h == 'H' || h == 'h') ∧ (c2 == 'C' || c2 == 'c') then
      let w := takeRun (·.isWhitespace) rest
      if w.1.isEmpty then none else some ("HC", 2 + w.1.length)
    else none
  | _ => none

/-- Number of `re.findall(r'\bHC\s+', …, re.IGNORECASE)` matches. -/
def countHC (cs : List Char) : ℕ :=
  (scanTokensFrom matchHCAt cs.length false 0 cs).length

/-- Positions of every zero-width lookahead match (for
`re.split(r'(?=…)', …)`): every position is tested, nothing skipped. -/
def lookaheadPositions (m : List Char → Option (String × ℕ)) :
    Bool → ℕ → List Char → List ℕ
  | _, _, [] => []
  | prevWord, pos, c :: cs =>
    match (if prevWord then none else m (c :: cs)) with
    | some _ => pos :: lookaheadPositions m (isWordChar c) (pos + 1) cs
    | none => lookaheadPositions m (isWordChar c) (pos + 1) cs

/-- Split a text at the given ascending positions (Python `re.split` with
a zero-width lookahead pattern): segment boundaries at each position. -/
def splitAtPositions (cs : List Char) : ℕ → List ℕ → List (List Char)
  | start, [] => [cs.drop start]
  | start, p :: ps => ((cs.drop start).take (p - start)) :: splitAtPositions cs p ps

/-- Match of `\s*\([A-Z0-9]{4,5}\)\s*` at the head, returning the number
of characters consumed (the run inside the parentheses is maximal and must
have length 4 or 5, since `')'` is outside the class). -/
def matchParenCodeAt (cs : List Char) : Option ℕ :=
  let w := takeRun (·.isWhitespace) cs
  match w.2 with
  | '(' :: rest =>
    let r := takeRun (fun c => ('A' ≤ c ∧ c ≤ 'Z') ∨ c.isDigit) rest
    if (r.1.length = 4 ∨ r.1.length = 5) then
      match r.2 with
      | ')' :: rest2 =>
        let w2 := takeRun (·.isWhitespace) rest2
        some (w.1.length + 1 + r.1.length + 1 + w2.1.length)
      | _ => none
    else none
  | _ => none

/-- `re.sub(r'\s*\([A-Z0-9]{4,5}\)\s*', ' ', …)`. -/
def removeParenCodesFrom : ℕ → List Char → List Char
  | 0, cs => cs
  | _ + 1, [] => []
  | fuel + 1, c :: cs =>
    match matchParenCodeAt (c :: cs) with
    | some k => ' ' :: removeParenCodesFrom fuel (List.drop k (c :: cs))
    | none => c :: removeParenCodesFrom fuel cs

def removeParenCodes (cs : List Char) : List Char := removeParenCodesFrom cs.length cs

/-- `re.sub(r'\b(?:[A-Z]\d{4}|\d{5})\b', '', …)`. -/
def removeCodeTokensFrom : ℕ → Bool → List Char → List Char
  | 0, _, cs => cs
  | _ + 1, _, [] => []
  | fuel + 1, prevWord, c :: cs =>
    match (if prevWord then none else matchCodeAt (c :: cs)) with
    | some (_, k) => removeCodeTokensFrom fuel true (List.drop k (c :: cs))
    | none => c :: removeCodeTokensFrom fuel (isWordChar c) cs

def removeCodeTokens (cs : List Char) : List Char :=
  removeCodeTokensFrom cs.length false cs

/-- Full match of `^\d{1,2}[/\-]\d{1,2}[/\-]\d{2,4}$` (date-shaped cell). -/
def dateLike (cs : List Char) : Bool :=
  let r1 := takeRun (·.isDigit) cs
  if 1 ≤ r1.1.length ∧ r1.1.length ≤ 2 then
    match r1.2 with
    | s1 :: t1 =>
      if s1 == '/' || s1 == '-' then
        let r2 := takeRun (·.isDigit) t1
        if 1 ≤ r2.1.length ∧ r2.1.length ≤ 2 then
          match r2.2 with
          | s2 :: t2 =>
            if s2 == '/' || s2 == '-' then
              let r3 := takeRun (·.isDigit) t2
              decide (2 ≤ r3.1.length ∧ r3.1.length ≤ 4) && r3.2.isEmpty
            else false
          | [] => false
        else false
      else false
    | [] => false
  else false

/-- Full match of `^[\d\$\.,\s]+$` (cell that is mostly numeric/currency
characters). -/
def mostlyNumeric (cs : List Char) : Bool :=
  !cs.isEmpty && cs.all (fun c => c.isDigit || c == '$' || c == '.' || c == ',' || c.isWhitespace)

/-- `re.search(r'\$?\s*([\d,]+\.?\d{0,2})', cell.replace(',', ''))` of
`parse_table_row`, applied to the comma-stripped cell: first digit run,
optionally followed by `'.'` and up to two digits, as a value. -/
def findFirstNum : List Char → Option ℚ
  | [] => none
  | c :: cs =>
    if c.isDigit then
      let run := takeRun (·.isDigit) cs
      let frac : List Char :=
        match run.2 with
        | '.' :: rest => (takeRun (·.isDigit) rest).1.take 2
        | _ => []
      some ((digitsVal (c :: run.1) : ℚ) + (digitsVal frac : ℚ) / ((10 : ℚ) ^ frac.length))
    else findFirstNum cs

/-- Consume exactly `n` digits. -/
def dropDigits : ℕ → List Char → Option (List Char)
  | 0, cs => some cs
  | _ + 1, [] => none
  | n + 1, c :: cs => if c.isDigit then dropDigits n cs else none

/-- The two continuations of an optional `[-.]` separator. -/
def sepOpts : List Char → List (List Char)
  | [] => [[]]
  | c :: rest => if c == '-' || c == '.' then [(c :: rest), rest] else [(c :: rest)]

/-- Match of `\d{3}[-.]?\d{3}[-.]?\d{4}` at the head (phone number). -/
def phoneMatchAt (cs : List Char) : Bool :=
  match dropDigits 3 cs with
  | none => false
  | some r1 => (sepOpts r1).any fun r2 =>
    match dropDigits 3 r2 with
    | none => false
    | some r3 => (sepOpts r3).any fun r4 => (dropDigits 4 r4).isSome

/-- `re.search(r'\d{3}[-.]?\d{3}[-.]?\d{4}', …)` as a Boolean. -/
def phoneSearch (cs : List Char) : Bool := cs.tails.any phoneMatchAt

/-- The phone-number-context filter of `extract_code`: the 15-character
window `text[max(0, pos-5) : pos+10]` around the first occurrence of the
code contains a phone-number-shaped digit pattern. -/
def phoneContext (cs : List Char) (code : String) : Bool :=
  let pos : ℤ := match firstOccurFrom code.toList cs 0 with
    | some n => (n : ℤ)
    | none => -1
  let lo := (max 0 (pos - 5)).toNat
  let context := (cs.drop lo).take ((pos + 10).toNat - lo)
  phoneSearch context

/-- The `valid_cpts` loop of `extract_code`: phone-context codes are
skipped, non-parenthetical codes are prepended (`insert(0, …)`),
parenthetical ones appended. -/
def buildValidCpts (cs : List Char) : List String → List String → List String
  | [], acc => acc
  | code :: rest, acc =>
    if phoneContext cs code then buildValidCpts cs rest acc
    else if ¬containsSub ("(" ++ code ++ ")").toList cs then
      buildValidCpts cs rest (code :: acc)
    else buildValidCpts cs rest (acc ++ [code])

/-- Embedding of `extract_code(text)`: HCPCS codes first (preferring one
that does not appear parenthesised), then 5-digit codes surviving the
phone-number-context filter, then a revenue code, else `None`. -/
def extract_code (text : String) : Option String :=
  let cs := text.toList
  match scanHcpcs cs with
  | c0 :: restM =>
    some (((c0 :: restM).find? (fun code =>
      ¬containsSub ("(" ++ code ++ ")").toList cs)).getD c0)
  | [] =>
    match buildValidCpts cs (scanCpt5 cs) [] with
    | v :: _ => some v
    | [] => searchRevenue cs


/-- Match of `\s*\$?\s*([\d,]+\.\d{2})` at the head (the separator-and-
amount tail of the `split_merged_cell` pattern), returning the value and
the characters consumed. -/
def sepAmountAt (cs : List Char) : Option (ℚ × ℕ) :=
  let w1 := takeRun (·.isWhitespace) cs
  let s1 : List Char × ℕ := match w1.2 with
    | '$' :: r => (r, 1)
    | _ => (w1.2, 0)
  let w2 := takeRun (·.isWhitespace) s1.1
  let run := takeRun (fun c => c.isDigit || c == ',') w2.2
  if run.1.isEmpty then none
  else
    match run.2 with
    | '.' :: d1 :: d2 :: _ =>
      if d1.isDigit ∧ d2.isDigit then
        let cents := 10 * (d1.toNat - 48) + (d2.toNat - 48)
        some (((digitsVal (run.1.filter (·.isDigit)) * 100 + cents : ℕ) : ℚ) / 100,
          w1.1.length + s1.2 + w2.1.length + run.1.length + 3)
      else none
    | _ => none

/-- Lazy extension of the `[^$\d]*?` part of the `split_merged_cell`
description: at each point the separator-and-amount tail is tried first
(lazy quantifier); the description may only grow over characters outside
`[$\d]`.  Returns the description, the value, and the rest of the text
after the match. -/
def mergedDescWalk (descRev : List Char) : List Char → Option (List Char × ℚ × List Char)
  | [] => none
  | c :: rest =>
    match sepAmountAt (c :: rest) with
    | some (v, k) => some (descRev.reverse, v, List.drop k (c :: rest))
    | none =>
      if c == '$' || c.isDigit then none
      else mergedDescWalk (c :: descRev) rest

/-- `re.findall(r'([A-Za-z][^$\d]*?)\s*\$?\s*([\d,]+\.\d{2})', …)`:
description/amount pairs, scanning left to right. -/
def scanMergedPairsFrom : ℕ → List Char → List (List Char × ℚ)
  | 0, _ => []
  | _ + 1, [] => []
  | fuel + 1, c :: cs =>
    if ('A' ≤ c ∧ c ≤ 'Z') ∨ ('a' ≤ c ∧ c ≤ 'z') then
      match mergedDescWalk [c] cs with
      | some (desc, v, rest) => (desc, v) :: scanMergedPairsFrom fuel rest
      | none => scanMergedPairsFrom fuel cs
    else scanMergedPairsFrom fuel cs

/-- Loop body of `split_merged_cell`: strip the description, keep length
≥ 3 and amount above 0.5. -/
def mergedCellBuild (p : List Char × ℚ) : Option LineItem :=
  let desc := pyStrip p.1
  if desc.length < 3 then none
  else if (1 : ℚ) / 2 < p.2 then
    some { code := extract_code (String.mk desc)
           description := String.mk ((collapseWs desc).take 100)
           quantity := 1
           amount := p.2 }
  else none

/-- `split_merged_cell(cell_text)`: one item per description/amount pair,
keeping stripped descriptions of length ≥ 3 and amounts above 0.5. -/
def split_merged_cell (cell_text : List Char) : List LineItem :=
  (scanMergedPairsFrom cell_text.length cell_text).filterMap mergedCellBuild

/-- The guarded item construction shared by the merged-cell splitters
(`if amount and amount > 0.5: items.append({..., "quantity": 1, ...})`;
a zero amount fails both the truthiness test and the bound). -/
def guardedItem (code : Option String) (descr : String) (amount : Option ℚ) :
    Option LineItem :=
  match amount with
  | some a =>
    if (1 : ℚ) / 2 < a then
      some { code := code, description := descr, quantity := 1, amount := a }
    else none
  | none => none

/-- Loop body of `split_merged_descriptions`: extract the part's code,
clean its description (length ≥ 3), and pair it with the amount at its
index (or the first amount), kept when above 0.5. -/
def mergedDescPartBuild (amounts : List ℚ) (e : ℕ × List Char) : Option LineItem :=
  let part := e.2
  let code := extract_code (String.mk part)
  let desc := pyStrip (collapseWs (removeCodeTokens part))
  if desc.length < 3 then none
  else
    let amount : Option ℚ := match amounts[e.1]? with
      | some a => some a
      | none => amounts.head?
    guardedItem code (String.mk (desc.take 100)) amount

/-- `split_merged_descriptions(cells)`: amounts are collected from every
cell, the longest non-numeric cell is the merged description, which is
split at `HC` markers (or, failing that, at code tokens), and parts are
paired with amounts by index (first amount as fallback). -/
def split_merged_descriptions (cells : List (List Char)) : List LineItem :=
  let amounts := cells.foldl (fun acc cell => acc ++ findAmounts cell) []
  let merged_desc := cells.foldl (fun best cell =>
    if best.length < cell.length ∧ ¬mostlyNumeric cell then cell else best) []
  if merged_desc.isEmpty then []
  else
    let parts0 := ((splitAtPositions merged_desc 0
      (lookaheadPositions matchHCAt false 0 merged_desc)).map pyStrip).filter (· ≠ [])
    let parts := if parts0.length ≤ 1 then
        ((splitAtPositions merged_desc 0
          (lookaheadPositions matchCodeAt false 0 merged_desc)).filter
          (fun p => pyStrip p ≠ [] ∧ 5 < p.length)).map pyStrip
      else parts0
    parts.enum.filterMap (mergedDescPartBuild amounts)

/-- Loop body of `split_by_codes`: the description is the text between
this code token and the next (amounts removed), with a leading fragment
prepended for the first code and a `Procedure <code>` fallback; the amount
is the one at the code's index or, past the end, the first amount
occurring after the code; kept when above 0.5. -/
def codeSegmentBuild (cell_text : List Char) (code_matches : List (String × ℕ))
    (amountsP : List (ℚ × ℕ)) (e : ℕ × String × ℕ) : Option LineItem :=
  let amount_values := amountsP.map (·.1)
  let i := e.1
  let code := e.2.1
  let cstart := e.2.2
  let cend := cstart + 5
  let nextStart := match code_matches[i + 1]? with
    | some nxt => nxt.2
    | none => cell_text.length
  let desc0 := pyStrip ((cell_text.drop cend).take (nextStart - cend))
  let desc1 := pyStrip (collapseWs (removeAmounts desc0))
  let desc2 := if i = 0 ∧ 0 < cstart then
      let pre := pyStrip (removeAmounts (pyStrip (cell_text.take cstart)))
      if pre ≠ [] ∧ 3 < pre.length then pre ++ [' '] ++ desc1 else desc1
    else desc1
  let desc3 := if desc2.length < 3 then ("Procedure " ++ code).toList else desc2
  let amount : Option ℚ := match amount_values[i]? with
    | some a => some a
    | none =>
      if amount_values.isEmpty then none
      else ((amountsP.filter (fun ap => cstart < ap.2)).map (·.1)).head?
  guardedItem (some code) (String.mk (desc3.take 100)) amount

/-- `split_by_codes(cell_text)`: split at the ≥ 2 code tokens, take the
text after each code (with amounts removed) as its description, prepend a
leading fragment to the first, and pair codes with amounts by index or,
past the end, with the first amount occurring after the code. -/
def split_by_codes (cell_text : List Char) : List LineItem :=
  let code_matches := scanCodesPos cell_text
  if code_matches.length < 2 then []
  else
    let amountsP := findAmountsPos cell_text
    code_matches.enum.filterMap (codeSegmentBuild cell_text code_matches amountsP)

/-- The `(0 if idx >= t else 1, idx)` stable sort followed by `[0]` of the
code selection in `parse_table_row`: the first candidate from column ≥ `t`,
else the first candidate (the list is in increasing column order). -/
def pickPreferred (t : ℕ) (l : List (ℕ × String)) : Option String :=
  match l.filter (fun e => t ≤ e.1) with
  | e :: _ => some e.2
  | [] => l.head?.map (·.2)

/-- Amount search of `parse_table_row`: right to left, the first cell
whose first number lies in (1, 1000000) supplies the amount and its cell
index. -/
def rowAmountSearch (cells : List (List Char)) : Option (ℚ × ℕ) :=
  (cells.enum.reverse).findSome? (fun e =>
    match findFirstNum (e.2.filter (· ≠ ',')) with
    | some val => if 1 < val ∧ val < 1000000 then some (val, e.1) else none
    | none => none)

/-- `parse_table_row(row)`: strip cells, require ≥ 2 non-empty cells, find
the amount right to left, collect HCPCS/CPT/revenue candidates per
non-date cell, select by priority and column, pick the longest non-numeric
cell (other than the amount cell) as description, and strip parenthetical
code echoes when an HCPCS/CPT code was selected. -/
def parse_table_row (row : List (Option String)) : Option LineItem :=
  let cells := (row.map (fun c => match c with
    | some s => pyStrip s.toList
    | none => ([] : List Char))).filter (· ≠ [])
  if cells.length < 2 then none
  else
    match rowAmountSearch cells with
    | none => none
    | some (amount, amount_idx) =>
      let codeCells := cells.enum.filter (fun e => ¬dateLike e.2)
      let hcpcs_codes := codeCells.filterMap (fun e =>
        ((scanHcpcs e.2).head?).map (fun code => (e.1, code)))
      let cpt_codes := codeCells.filterMap (fun e =>
        match (scanCpt5 e.2).head? with
        | some code =>
          let residual := pyStrip (replaceSub code.toList e.2.length e.2)
          if ¬(residual ≠ [] ∧ residual.all (·.isDigit)) then some (e.1, code) else none
        | none => none)
      let revenue_codes := codeCells.filterMap (fun e =>
        (searchRevenue e.2).map (fun code => (e.1, code)))
      let sel : Option (String × Bool) :=
        if ¬hcpcs_codes.isEmpty then (pickPreferred 2 hcpcs_codes).map (fun c => (c, true))
        else if ¬cpt_codes.isEmpty then (pickPreferred 2 cpt_codes).map (fun c => (c, true))
        else if ¬revenue_codes.isEmpty then (pickPreferred 1 revenue_codes).map (fun c => (c, false))
        else none
      let description0 := cells.enum.foldl (fun desc e =>
        if e.1 ≠ amount_idx ∧ desc.length < e.2.length ∧ ¬mostlyNumeric e.2 ∧ 3 < e.2.length
        then e.2 else desc) []
      if description0.isEmpty then none
      else
        let stripParens := match sel with
          | some (_, b) => b
          | none => false
        let description1 := if stripParens then removeParenCodes description0 else description0
        let description := pyStrip (collapseWs description1)
        some { code := sel.map (·.1)
               description := String.mk (description.take 100)
               quantity := 1
               amount := amount }

/-- The per-cell merged-content trigger loop of
`parse_table_row_with_split`: first cell with ≥ 2 amounts splits that
cell; ≥ 2 `HC` markers split the whole row's cells; a cell longer than 20
characters with ≥ 2 code tokens splits by codes. -/
def splitTrigger (cells : List (List Char)) : List (List Char) → Option (List LineItem)
  | [] => none
  | cell :: rest =>
    if cell.isEmpty then splitTrigger cells rest
    else if 2 ≤ (findAmounts cell).length then some (split_merged_cell cell)
    else if 2 ≤ countHC cell then some (split_merged_descriptions cells)
    else if 20 < cell.length ∧ 2 ≤ (scanCodesPos cell).length then
      some (split_by_codes cell)
    else splitTrigger cells rest

/-- `parse_table_row_with_split(row)`: split a merged row when a trigger
fires, otherwise parse it as a single item. -/
def parse_table_row_with_split (row : List (Option String)) : List LineItem :=
  let cells := row.map (fun c => match c with
    | some s => pyStrip s.toList
    | none => ([] : List Char))
  match splitTrigger cells cells with
  | some items => items
  | none =>
    match parse_table_row row with
    | some item => [item]
    | none => []


/-- Python `text.split('\n')`. -/
def splitLines : List Char → List (List Char)
  | [] => [[]]
  | c :: cs =>
    if c == '\n' then [] :: splitLines cs
    else
      match splitLines cs with
      | l :: ls => (c :: l) :: ls
      | [] => [[c]]

/-- The non-item vocabulary of `extract_from_text`. -/
def skipWords : List String :=
  ["total", "subtotal", "balance", "payment", "date", "page",
   "account", "patient", "insurance", "amount due", "paid"]

/-- The non-item vocabulary of `extract_from_text_aggressive`. -/
def aggressiveSkipWords : List String :=
  ["total", "subtotal", "balance", "payment", "date", "page",
   "account", "patient", "insurance", "amount due", "paid",
   "statement", "billing", "address", "phone", "fax"]

/-- Tail of pattern 1 (`\s+\$?([\d,]+\.\d{2})\s*$`): at least one space,
an optional dollar sign, the amount, then only whitespace to the end. -/
def p1Tail (cs : List Char) : Option ℚ :=
  let w := takeRun (·.isWhitespace) cs
  if w.1.isEmpty then none
  else
    let s1 := match w.2 with
      | '$' :: r => r
      | _ => w.2
    let run := takeRun (fun c => c.isDigit || c == ',') s1
    if run.1.isEmpty then none
    else
      match run.2 with
      | '.' :: d1 :: d2 :: rest =>
        if d1.isDigit ∧ d2.isDigit ∧ rest.all (·.isWhitespace) then
          some (((digitsVal (run.1.filter (·.isDigit)) * 100 +
            (10 * (d1.toNat - 48) + (d2.toNat - 48)) : ℕ) : ℚ) / 100)
        else none
      | _ => none

/-- The lazy `(.+?)` of pattern 1: the shortest non-empty description
prefix whose remainder matches the pattern-1 tail. -/
def p1Go (descRev : List Char) : List Char → Option (List Char × ℚ)
  | [] => none
  | c :: rest =>
    match p1Tail rest with
    | some v => some ((c :: descRev).reverse, v)
    | none => p1Go (c :: descRev) rest

/-- Tail of pattern 2 (`\s+\$?([\d,]+\.\d{2})\s+(\d+)?`): as pattern 1 but
the amount must be followed by at least one whitespace character (the
trailing quantity group is never used by the source). -/
def p2Tail (cs : List Char) : Option ℚ :=
  let w := takeRun (·.isWhitespace) cs
  if w.1.isEmpty then none
  else
    let s1 := match w.2 with
      | '$' :: r => r
      | _ => w.2
    let run := takeRun (fun c => c.isDigit || c == ',') s1
    if run.1.isEmpty then none
    else
      match run.2 with
      | '.' :: d1 :: d2 :: rest =>
        if d1.isDigit ∧ d2.isDigit ∧ (rest.headD ' ').isWhitespace ∧ ¬rest.isEmpty then
          some (((digitsVal (run.1.filter (·.isDigit)) * 100 +
            (10 * (d1.toNat - 48) + (d2.toNat - 48)) : ℕ) : ℚ) / 100)
        else none
      | _ => none

/-- The lazy `(.+?)` of pattern 2. -/
def p2Go (descRev : List Char) : List Char → Option (List Char × ℚ)
  | [] => none
  | c :: rest =>
    match p2Tail rest with
    | some v => some ((c :: descRev).reverse, v)
    | none => p2Go (c :: descRev) rest

/-- The optional leading `(\d{5}|[A-Z]\d{4})?` of pattern 2 (no word
boundaries; alternation order as in the source). -/
def matchLeadCode : List Char → Option (String × ℕ)
  | a :: b :: c :: d :: e :: _ =>
    if a.isDigit ∧ b.isDigit ∧ c.isDigit ∧ d.isDigit ∧ e.isDigit then
      some (String.mk [a, b, c, d, e], 5)
    else if ('A' ≤ a ∧ a ≤ 'Z') ∧ b.isDigit ∧ c.isDigit ∧ d.isDigit ∧ e.isDigit then
      some (String.mk [a, b, c, d, e], 5)
    else none
  | _ => none

/-- Pattern 2 search on a line (the match starts at position 0, because
the lazy description can absorb any prefix; the greedy optional code group
is tried first and dropped if the rest of the pattern cannot follow). -/
def pattern2Match (cs : List Char) : Option (Option String × List Char × ℚ) :=
  let noCode : Option (Option String × List Char × ℚ) :=
    (p2Go [] ((takeRun (·.isWhitespace) cs).2)).map (fun r => (none, r.1, r.2))
  match matchLeadCode cs with
  | some (code, k) =>
    match p2Go [] ((takeRun (·.isWhitespace) (cs.drop k)).2) with
    | some r => some (some code, r.1, r.2)
    | none => noCode
  | none => noCode

/-- One line of `extract_from_text`: skip short and non-item lines, then
try pattern 1 and pattern 2, deduplicating on the lowercased first 50
characters of the description (one `seen_descriptions` set for the whole
text). -/
def textLineStep (acc : List LineItem × List (List Char)) (rawLine : List Char) :
    List LineItem × List (List Char) :=
  let line := pyStrip rawLine
  if line.length < 5 then acc
  else if skipWords.any (fun w => containsSub w.toList (line.map lowerChar)) then acc
  else
    let step1 : List LineItem × List (List Char) :=
      match p1Go [] line with
      | some (d, v) =>
        let description := pyStrip d
        if 1 < v ∧ 3 < description.length then
          let descKey := (description.take 50).map lowerChar
          if acc.2.contains descKey then acc
          else (acc.1 ++ [{ code := extract_code (String.mk description)
                            description := String.mk (description.take 100)
                            quantity := 1, amount := v }], descKey :: acc.2)
        else acc
      | none => acc
    match pattern2Match line with
    | some (code, d, v) =>
      let description := pyStrip d
      if 1 < v ∧ 3 < description.length then
        let descKey := (description.take 50).map lowerChar
        if step1.2.contains descKey then step1
        else (step1.1 ++ [{ code := code
                            description := String.mk (description.take 100)
                            quantity := 1, amount := v }], descKey :: step1.2)
      else step1
    | none => step1

/-- `extract_from_text(text)`. -/
def extract_from_text (text : String) : List LineItem :=
  ((splitLines text.toList).foldl textLineStep ([], [])).1

/-- One line of `extract_from_text_aggressive`: take the last amount of
the line, require it in (1, 100000) and unseen, strip all amounts to get
the description (which must be longer than 5 characters). -/
def aggressiveLineStep (acc : List LineItem × List ℚ) (rawLine : List Char) :
    List LineItem × List ℚ :=
  let line := pyStrip rawLine
  if line.length < 10 then acc
  else if aggressiveSkipWords.any (fun w => containsSub w.toList (line.map lowerChar)) then acc
  else
    match (findAmounts line).getLast? with
    | some amount =>
      if 1 < amount ∧ amount < 100000 ∧ ¬acc.2.contains amount then
        let description := collapseWs (pyStrip (removeAmounts line))
        if 5 < description.length then
          (acc.1 ++ [{ code := extract_code (String.mk line)
                       description := String.mk (description.take 100)
                       quantity := 1, amount := amount }], amount :: acc.2)
        else acc
      else acc
    | none => acc

/-- `extract_from_text_aggressive(text)`. -/
def extract_from_text_aggressive (text : String) : List LineItem :=
  ((splitLines text.toList).foldl aggressiveLineStep ([], [])).1

/-- `get_mock_line_items()`: the fixed demonstration set (in its literal
order). -/
def get_mock_line_items : List LineItem :=
  [{ code := some "99213", description := "Office/outpatient visit, established patient",
     quantity := 1, amount := 150 },
   { code := some "85025", description := "Complete blood count (CBC)",
     quantity := 1, amount := 45 },
   { code := some "80053", description := "Comprehensive metabolic panel",
     quantity := 1, amount := 75 },
   { code := some "71046", description := "Chest X-ray, 2 views",
     quantity := 1, amount := 250 },
   { code := some "36415", description := "Venipuncture for blood draw",
     quantity := 1, amount := 25 }]

/-- The duplicate-amount merge loop of `extract_line_items_regex`
(`existing_amounts` starts as the amounts of the base list and grows with
each appended item). -/
def mergeLoop : List LineItem → List ℚ → List LineItem → List LineItem
  | acc, _, [] => acc
  | acc, seen, it :: rest =>
    if seen.contains it.amount then mergeLoop acc seen rest
    else mergeLoop (acc ++ [it]) (it.amount :: seen) rest

/-- Merge `extra` into `base`, skipping items whose exact amount is
already present. -/
def merge_by_amount (base extra : List LineItem) : List LineItem :=
  mergeLoop base (base.map (·.amount)) extra

/-- `line_items.sort(key=lambda x: x["amount"], reverse=True)` — a stable
sort by descending amount (modelled by stable insertion sort). -/
def sortByAmountDesc (l : List LineItem) : List LineItem :=
  l.insertionSort (fun a b => b.amount ≤ a.amount)

/-- The strategy cascade of `extract_line_items_regex`, starting from the
per-strategy yields: text items are merged only when the tables yielded
fewer than 5 items, aggressive items only when the running total is below
10, the fixed mock list is returned (unsorted) when everything is empty,
and otherwise the result is sorted by descending amount. -/
def extract_pipeline (tableItems textItems aggressiveItems : List LineItem) :
    List LineItem :=
  let li1 := tableItems
  let li2 := if li1.length < 5 then merge_by_amount li1 textItems else li1
  let li3 := if li2.length < 10 then merge_by_amount li2 aggressiveItems else li2
  if li3.isEmpty then get_mock_line_items
  else sortByAmountDesc li3

/-- `extract_line_items_regex(pdf_path)` given the pdfplumber outputs: the
detected table rows and the concatenated page text.  (The `except` path of
the source, which returns the mock list on an I/O error, lies outside the
model.) -/
def extract_line_items_regex (tableRows : List (List (Option String)))
    (full_text : String) : List LineItem :=
  let tableItems := tableRows.foldl (fun acc row =>
    if ¬row.isEmpty ∧ 2 ≤ row.length then acc ++ parse_table_row_with_split row
    else acc) []
  extract_pipeline tableItems (extract_from_text full_text)
    (extract_from_text_aggressive full_text)

/-! ## Claims -/

/-- Input for the C1 witness: a combined payload whose drug average
spending resolves the fair price. -/
def assessDrugInput : CombinedResult :=
  { hcpcsCode := "J1234"
    physicianFee := none
    facilityFee := none
    drugPricing := some
      { hcpcsCode := "J1234", originalCode := some "J1234", description := some "Drug"
        brandName := none, genericName := none, aspPrice := none
        avgSpendingPerUnit := some 100, totalClaims := none, totalBenes := none
        cachedAt := 0 }
    hasData := true
    hasReliableData := true
    descriptionMatch := none
    cachedAt := 0 }

/-- Claim C1 (amended): for every billed amount and every resolved fair
price, the assessment returns variance `(billed - fair) / fair * 100`
rounded to one decimal, and assigns the tier by the stated bands (CMS:
`low` up to `fair`, `fair` up to `1.5×`, `high` up to `2.0×`, `very_high`
beyond; fallback: thresholds `1.2×` and `1.5×`), with savings `0` on the
`low`/`fair` tiers and `billed - fair` **rounded to two decimals** (the
amendment) on the `high`/`very_high` tiers. -/
theorem assess_price_bands (billed fair gross mfair : ℚ) (d : CombinedResult)
    (hsel : select_fair_price_cms d = some fair) :
    assess_price_cms billed (some d) =
      ((if billed ≤ fair then PriceStatus.low
        else if billed ≤ fair * 1.5 then PriceStatus.fair
        else if billed ≤ fair * 2.0 then PriceStatus.high
        else PriceStatus.veryHigh),
       some (round1 ((billed - fair) / fair * 100)),
       some (if billed ≤ fair then (0 : ℚ)
         else if billed ≤ fair * 1.5 then (0 : ℚ)
         else round2 (billed - fair)),
       some fair) ∧
    assess_price_mock billed (some gross) (some mfair) =
      ((if billed ≤ mfair then PriceStatus.low
        else if billed ≤ mfair * 1.2 then PriceStatus.fair
        else if billed ≤ mfair * 1.5 then PriceStatus.high
        else PriceStatus.veryHigh),
       some (round1 ((billed - mfair) / mfair * 100)),
       some (if billed ≤ mfair then (0 : ℚ)
         else if billed ≤ mfair * 1.2 then (0 : ℚ)
         else round2 (billed - mfair)),
       some mfair) := by
  constructor
  · simp only [assess_price_cms, hsel]
    split_ifs <;> rfl
  · simp only [assess_price_mock]
    split_ifs <;> rfl

/-- Witness for C1: billed 300 against a resolved fair price of 100. -/
theorem assess_price_bands_witness :
    select_fair_price_cms assessDrugInput = some 100 ∧
    assess_price_cms 300 (some assessDrugInput) =
      ((if (300 : ℚ) ≤ 100 then PriceStatus.low
        else if (300 : ℚ) ≤ 100 * 1.5 then PriceStatus.fair
        else if (300 : ℚ) ≤ 100 * 2.0 then PriceStatus.high
        else PriceStatus.veryHigh),
       some (round1 (((300 : ℚ) - 100) / 100 * 100)),
       some (if (300 : ℚ) ≤ 100 then (0 : ℚ)
         else if (300 : ℚ) ≤ 100 * 1.5 then (0 : ℚ)
         else round2 ((300 : ℚ) - 100)),
       some (100 : ℚ)) := by
  refine ⟨by decide, ?_⟩
  exact (assess_price_bands 300 100 1 100 assessDrugInput (by decide)).1

/-- Counterexample for C1 as stated: with a fallback fair price of `1/3`
and billed `1`, the returned potential savings are `0.67`, not the exact
`billed - fair = 2/3` that the claim asserts (the source rounds savings to
two decimals). -/
theorem assess_price_savings_rounding_cx :
    (assess_price_mock 1 (some 1) (some (mkRat 1 3))).2.2.1 = some (67 / 100 : ℚ) ∧
    (67 / 100 : ℚ) ≠ 1 - mkRat 1 3 := by
  have h3 : (mkRat 1 3 : ℚ) = 1 / 3 := by
    rw [Rat.mkRat_eq_divInt]
    norm_num [Rat.divInt_eq_div]
  have hr : round ((1 - (1 : ℚ) / 3) * 100) = 67 := by
    rw [round_eq, Int.floor_eq_iff]
    norm_num
  constructor
  · simp only [assess_price_mock, h3, round2]
    rw [if_neg (by norm_num), if_neg (by norm_num), if_neg (by norm_num)]
    simp only [hr]
    norm_num
  · rw [h3]
    norm_num

/-- Claim C8 (amended): for every description `d` whose normalization
contains at least one non-stopword word, the validator applied to `(d, d)`
classifies the match as `good` with score 100.  (As stated, the claim
fails for non-empty strings whose normalization is empty or all
stopwords.) -/
theorem desc_match_self (d : String)
    (hm : ((normalize_text d) \ matchStopwords).Nonempty) :
    (calculate_description_match d d).matchType = MatchType.good ∧
    (calculate_description_match d d).score = 100 := by
  have hW : (normalize_text d).Nonempty := hm.mono Finset.sdiff_subset
  have hd : ¬(d.isEmpty = true ∨ d.isEmpty = true) := by
    intro h
    have hd' : d = "" := (String.isEmpty_iff d).mp (h.elim id id)
    rw [hd'] at hW
    simp [normalize_text, lowerRuns] at hW
  have hcard : (normalize_text d \ matchStopwords).card ≠ 0 := by
    simpa [Finset.card_eq_zero, ← Finset.not_nonempty_iff_eq_empty] using hm
  unfold calculate_description_match
  rw [if_neg hd]
  rw [if_neg (by simp [hW])]
  rw [if_neg (by rintro ⟨h1, h2, h3⟩; exact h3 h1)]
  rw [if_neg (by rintro ⟨h1, h2, h3⟩; exact h3 h2)]
  rw [if_neg (by rintro ⟨h1, h2, h3⟩; exact h3 (by simpa using h1))]
  rw [if_neg (by simp [hm])]
  rw [Finset.inter_self, Finset.union_self]
  have h100 : (normalize_text d \ matchStopwords).card * 100 /
      (normalize_text d \ matchStopwords).card = 100 :=
    Nat.mul_div_cancel_left 100 (Nat.pos_of_ne_zero hcard)
  rw [if_pos]
  · rw [if_pos]
    · exact ⟨rfl, h100⟩
    · rw [h100]
      norm_num
  · left
    exact Nat.one_le_iff_ne_zero.mpr hcard

/-- Witness for C8 at `d = "office visit"`. -/
theorem desc_match_self_witness :
    ((normalize_text "office visit") \ matchStopwords).Nonempty ∧
    (calculate_description_match "office visit" "office visit").matchType = MatchType.good ∧
    (calculate_description_match "office visit" "office visit").score = 100 :=
  ⟨by decide, desc_match_self "office visit" (by decide)⟩

/-- Counterexample for C8 as stated: `"the"` is a non-empty description,
but the validator classifies `("the", "the")` as `unknown` (score 50), not
as the 100-score `good` class, because every word is a stopword. -/
theorem desc_match_self_cx :
    ("the" : String) ≠ "" ∧
    (calculate_description_match "the" "the").matchType = MatchType.unknown := by
  decide

/-- The acceptable description-match classifications of
`get_combined_pricing` (`good`, `partial`, `unknown`). -/
def dmAccept : Option MatchResult → Bool
  | none => false
  | some m =>
    m.matchType == MatchType.good || m.matchType == MatchType.partialMatch ||
      m.matchType == MatchType.unknown

/-- Claim C3 (amended): for every code lookup, `has_reliable_data` is true
exactly when some pricing data exists (physician or drug) and either no
description match was computed — because no bill description was supplied,
or because the resolved dataset record carries no reference description —
or the computed classification is `good`, `partial`, or `unknown`; it is
false on `mismatch`/`category_mismatch` and whenever no data exists. -/
theorem has_reliable_data_eq (env : Env) (code : String) (bdesc : Option String)
    (now : ℤ) (c : Cache) :
    (compute_combined_pricing env code bdesc now c).1.hasReliableData =
      ((compute_combined_pricing env code bdesc now c).1.hasData &&
       ((compute_combined_pricing env code bdesc now c).1.descriptionMatch.isNone ||
        dmAccept (compute_combined_pricing env code bdesc now c).1.descriptionMatch)) := by
  simp only [compute_combined_pricing]
  by_cases hdc : is_drug_code code = true <;>
    simp only [hdc, if_true, if_false, Bool.false_eq_true] <;>
    rcases (get_drug_pricing env code now c.drug).1 with _ | dd <;>
    rcases (get_physician_fee_by_hcpcs env code now c.pfs).1 with _ | pd <;>
    split_ifs <;>
    simp_all [dmAccept]

/-- Environment for the C3 counterexample: the drug dataset returns one
record with spending data but a `None` description. -/
def c3Env : Env :=
  { physRecords := fun _ => []
    drugRecords := fun _ =>
      [{ hcpcsCd := some "J1234", hcpcsDesc := none, brndName := none, gnrcName := none
         avgAspPrice := none, avgSpndngPerUnit := some 5, totClms := none, totBenes := none }] }

/-- Counterexample for C3 as stated: a drug record with pricing data but
no reference description, looked up with a non-empty bill description,
yields `has_reliable_data = true` although a bill description was
supplied and no classification in `{good, partial, unknown}` exists (no
match was computed at all) — the claim's 'exactly when' biconditional
fails. -/
theorem reliable_flag_cx :
    (get_combined_pricing c3Env "J1234" (some "ketamine injection") 0 ⟨[], [], []⟩).1.hasData = true ∧
    strTruthy (some "ketamine injection") = true ∧
    (get_combined_pricing c3Env "J1234" (some "ketamine injection") 0 ⟨[], [], []⟩).1.descriptionMatch = none ∧
    (get_combined_pricing c3Env "J1234" (some "ketamine injection") 0 ⟨[], [], []⟩).1.hasReliableData ≠
      ((get_combined_pricing c3Env "J1234" (some "ketamine injection") 0 ⟨[], [], []⟩).1.hasData &&
       (!(strTruthy (some "ketamine injection")) ||
        dmAccept (get_combined_pricing c3Env "J1234" (some "ketamine injection") 0 ⟨[], [], []⟩).1.descriptionMatch)) := by
  decide

/-- Claim C5: a combined-pricing resolution accompanied by a non-empty
bill description never reads and never writes the combined
(description-free, unvalidated) cache namespace: the result, the network
call count and the other cache namespaces are independent of its content,
and it is returned unchanged. -/
theorem validated_lookup_comb_frame (env : Env) (code desc : String) (now : ℤ)
    (pfs : CacheList PhysData) (drug : CacheList DrugData)
    (comb1 comb2 : CacheList CombinedResult) (h : desc ≠ "") :
    (get_combined_pricing env code (some desc) now ⟨pfs, drug, comb1⟩).1 =
      (get_combined_pricing env code (some desc) now ⟨pfs, drug, comb2⟩).1 ∧
    (get_combined_pricing env code (some desc) now ⟨pfs, drug, comb1⟩).2.2 =
      (get_combined_pricing env code (some desc) now ⟨pfs, drug, comb2⟩).2.2 ∧
    (get_combined_pricing env code (some desc) now ⟨pfs, drug, comb1⟩).2.1.pfs =
      (get_combined_pricing env code (some desc) now ⟨pfs, drug, comb2⟩).2.1.pfs ∧
    (get_combined_pricing env code (some desc) now ⟨pfs, drug, comb1⟩).2.1.drug =
      (get_combined_pricing env code (some desc) now ⟨pfs, drug, comb2⟩).2.1.drug ∧
    (get_combined_pricing env code (some desc) now ⟨pfs, drug, comb1⟩).2.1.comb = comb1 ∧
    (get_combined_pricing env code (some desc) now ⟨pfs, drug, comb2⟩).2.1.comb = comb2 := by
  have hs : strTruthy (some desc) = true := by
    have : desc.isEmpty = false := by
      rw [Bool.eq_false_iff]
      intro hh
      exact h ((String.isEmpty_iff desc).mp hh)
    simp [strTruthy, this]
  simp only [get_combined_pricing, hs, if_true, compute_combined_pricing]
  by_cases hdc : is_drug_code code = true <;>
    simp [hdc, hs]

/-- Helper for C4: when a description-free combined computation finds
data, it prepends the fresh entry to the combined cache namespace. -/
theorem compute_combined_write (env : Env) (code : String) (bdesc : Option String)
    (now : ℤ) (c : Cache) (hbd : strTruthy bdesc = false)
    (hd : (compute_combined_pricing env code bdesc now c).1.hasData = true) :
    (compute_combined_pricing env code bdesc now c).2.1.comb =
      (code, (compute_combined_pricing env code bdesc now c).1, now) :: c.comb := by
  simp only [compute_combined_pricing] at hd ⊢
  by_cases hdc : is_drug_code code = true <;>
    simp only [hdc, if_true, if_false, Bool.false_eq_true] at hd ⊢ <;>
    simp_all [write_cache]

/-- Claim C4 (amended): when no valid combined cache entry exists
beforehand and the first description-free resolution of a code finds
pricing data, a second description-free resolution within the 24-hour TTL
window returns the identical payload, leaves the cache unchanged, and
issues no network call. -/
theorem combined_cache_hit (env : Env) (code : String) (t1 t2 : ℤ) (c0 : Cache)
    (hmiss : read_cache c0.comb t1 code = none)
    (hwin : t2 - CACHE_EXPIRY_HOURS < t1)
    (hdata : (get_combined_pricing env code none t1 c0).1.hasData = true) :
    get_combined_pricing env code none t2 ((get_combined_pricing env code none t1 c0).2.1) =
      ((get_combined_pricing env code none t1 c0).1,
       (get_combined_pricing env code none t1 c0).2.1, 0) := by
  have hb : strTruthy none = false := rfl
  simp only [get_combined_pricing, hb, Bool.false_eq_true, if_false, hmiss] at hdata ⊢
  rw [compute_combined_write env code none t1 c0 hb hdata]
  simp [read_cache, List.find?, is_cache_valid, hwin]

/-- Environment with empty datasets (every fetch returns no rows). -/
def emptyEnv : Env := { physRecords := fun _ => [], drugRecords := fun _ => [] }

/-- The empty cache. -/
def emptyCache : Cache := ⟨[], [], []⟩

/-- Counterexample for C4 as stated: for a code with no pricing data,
nothing is cached (negatives are not cached), so the second resolution one
hour later — within the TTL window — issues a network call again and
returns a payload differing in `cached_at`. -/
theorem combined_cache_negative_cx :
    (1 : ℤ) - CACHE_EXPIRY_HOURS < 0 ∧
    (get_combined_pricing emptyEnv "99999" none 1
      ((get_combined_pricing emptyEnv "99999" none 0 emptyCache).2.1)).2.2 = 1 ∧
    (get_combined_pricing emptyEnv "99999" none 1
      ((get_combined_pricing emptyEnv "99999" none 0 emptyCache).2.1)).1 ≠
      (get_combined_pricing emptyEnv "99999" none 0 emptyCache).1 := by
  decide

/-- Environment whose physician dataset returns one row with a positive
payment. -/
def physEnv : Env :=
  { physRecords := fun _ =>
      [{ avgMdcrPymtAmt := some 30, avgSbmtdChrg := none, hcpcsDesc := some "Office visit" }]
    drugRecords := fun _ => [] }

/-- Witness for C4: code `99213` with physician data, first resolution at
time 0, second at time 1. -/
theorem combined_cache_hit_witness :
    read_cache emptyCache.comb 0 "99213" = none ∧
    (1 : ℤ) - CACHE_EXPIRY_HOURS < 0 ∧
    (get_combined_pricing physEnv "99213" none 0 emptyCache).1.hasData = true ∧
    get_combined_pricing physEnv "99213" none 1
        ((get_combined_pricing physEnv "99213" none 0 emptyCache).2.1) =
      ((get_combined_pricing physEnv "99213" none 0 emptyCache).1,
       (get_combined_pricing physEnv "99213" none 0 emptyCache).2.1, 0) :=
  ⟨by decide, by decide, by decide,
   combined_cache_hit physEnv "99213" 0 1 emptyCache (by decide) (by decide) (by decide)⟩

/-- Claim C10: for every 4-digit code starting with `'0'` (revenue code),
the batch pricing lookup returns the fixed stub entry with
`has_data = False` and `has_reliable_data = False`, performs no dataset
query, and leaves the cache untouched. -/
theorem revenue_code_skip (env : Env) (now : ℤ) (c : Cache) (code : String)
    (desc : Option String) (hlen : code.length = 4)
    (hzero : code.toList.headD ' ' = '0') :
    get_pricing_for_codes env [(code, desc)] now c =
      ([(code, BatchEntry.revenueStub code)], c, 0) ∧
    (BatchEntry.revenueStub code).hasData = false ∧
    (BatchEntry.revenueStub code).hasReliableData = false := by
  have hne : code.isEmpty = false := by
    rw [Bool.eq_false_iff]
    intro hh
    rw [(String.isEmpty_iff code).mp hh] at hlen
    simp at hlen
  refine ⟨?_, rfl, rfl⟩
  have hz' : code.data.head?.getD ' ' = '0' := by simpa using hzero
  simp [get_pricing_for_codes, pricing_for_code_step, hne, hlen, hz',
    BatchEntry.hasData, BatchEntry.hasReliableData]

/-- Witness for C10 at code `"0250"`. -/
theorem revenue_code_skip_witness :
    ("0250" : String).length = 4 ∧ ("0250" : String).toList.headD ' ' = '0' ∧
    (get_pricing_for_codes emptyEnv [("0250", some "Room and board")] 0 emptyCache =
      ([("0250", BatchEntry.revenueStub "0250")], emptyCache, 0) ∧
     (BatchEntry.revenueStub "0250").hasData = false ∧
     (BatchEntry.revenueStub "0250").hasReliableData = false) :=
  ⟨by decide, by decide,
   revenue_code_skip emptyEnv 0 emptyCache "0250" (some "Room and board")
     (by decide) (by decide)⟩

/-- Witness for C5: a validated lookup of `71046` on the empty caches. -/
theorem validated_lookup_comb_frame_witness :
    ("Chest X-ray" : String) ≠ "" ∧
    ((get_combined_pricing physEnv "71046" (some "Chest X-ray") 0 ⟨[], [], []⟩).1 =
      (get_combined_pricing physEnv "71046" (some "Chest X-ray") 0 ⟨[], [], []⟩).1 ∧
    (get_combined_pricing physEnv "71046" (some "Chest X-ray") 0 ⟨[], [], []⟩).2.2 =
      (get_combined_pricing physEnv "71046" (some "Chest X-ray") 0 ⟨[], [], []⟩).2.2 ∧
    (get_combined_pricing physEnv "71046" (some "Chest X-ray") 0 ⟨[], [], []⟩).2.1.pfs =
      (get_combined_pricing physEnv "71046" (some "Chest X-ray") 0 ⟨[], [], []⟩).2.1.pfs ∧
    (get_combined_pricing physEnv "71046" (some "Chest X-ray") 0 ⟨[], [], []⟩).2.1.drug =
      (get_combined_pricing physEnv "71046" (some "Chest X-ray") 0 ⟨[], [], []⟩).2.1.drug ∧
    (get_combined_pricing physEnv "71046" (some "Chest X-ray") 0 ⟨[], [], []⟩).2.1.comb = [] ∧
    (get_combined_pricing physEnv "71046" (some "Chest X-ray") 0 ⟨[], [], []⟩).2.1.comb = []) :=
  ⟨by decide,
   validated_lookup_comb_frame physEnv "71046" "Chest X-ray" 0 [] [] [] [] (by decide)⟩

/-- Every token emitted by the generic token scanner satisfies any
property enjoyed by all values of its matcher. -/
theorem scanTokensFrom_prop {m : List Char → Option (String × ℕ)} {Q : String → Prop}
    (hm : ∀ cs t k, m cs = some (t, k) → Q t) :
    ∀ fuel b p cs e, e ∈ scanTokensFrom m fuel b p cs → Q e.1 := by
  intro fuel
  induction fuel with
  | zero => intro b p cs e he; simp [scanTokensFrom] at he
  | succ n ih =>
    intro b p cs e he
    match cs with
    | [] => simp [scanTokensFrom] at he
    | c :: cs' =>
      rw [scanTokensFrom] at he
      rcases hmm : (if b then none else m (c :: cs')) with _ | tk
      · rw [hmm] at he
        exact ih _ _ _ _ he
      · rw [hmm] at he
        rcases List.mem_cons.mp he with h | h
        · subst h
          rcases b with _ | _
          · simp at hmm
            exact hm _ _ _ hmm
          · simp at hmm
        · exact ih _ _ _ _ h

/-- Every HCPCS token found by the scanner has length 5. -/
theorem scanHcpcs_length (cs : List Char) : ∀ t ∈ scanHcpcs cs, t.length = 5 := by
  intro t ht
  rcases List.mem_map.mp ht with ⟨e, he, rfl⟩
  refine scanTokensFrom_prop (Q := fun t => t.length = 5) ?_ _ _ _ _ _ he
  intro cs' t' k' hm'
  match cs' with
  | c :: d1 :: d2 :: d3 :: d4 :: rest =>
    rw [matchHcpcsAt] at hm'
    split_ifs at hm'
    · simp only [Option.some.injEq, Prod.mk.injEq] at hm'
      rw [← hm'.1]
      rfl
  | [] => simp [matchHcpcsAt] at hm'
  | [a] => simp [matchHcpcsAt] at hm'
  | [a, b] => simp [matchHcpcsAt] at hm'
  | [a, b, c] => simp [matchHcpcsAt] at hm'
  | [a, b, c, d] => simp [matchHcpcsAt] at hm'

/-- Every 5-digit token found by the scanner has length 5. -/
theorem scanCpt5_length (cs : List Char) : ∀ t ∈ scanCpt5 cs, t.length = 5 := by
  intro t ht
  rcases List.mem_map.mp ht with ⟨e, he, rfl⟩
  refine scanTokensFrom_prop (Q := fun t => t.length = 5) ?_ _ _ _ _ _ he
  intro cs' t' k' hm'
  rw [matchCpt5At] at hm'
  split_ifs at hm' with hcond
  · simp only [Option.some.injEq, Prod.mk.injEq] at hm'
    rw [← hm'.1]
    simpa using hcond.1

/-- A revenue code returned by `searchRevenue` has length 4 and starts
with `'0'`. -/
theorem searchRevenue_shape (cs : List Char) (r : String) (h : searchRevenue cs = some r) :
    r.length = 4 ∧ r.toList.headD ' ' = '0' := by
  have hmem : r ∈ (scanTokensFrom matchRevenueAt cs.length false 0 cs).map (·.1) := by
    unfold searchRevenue at h
    exact List.mem_of_mem_head? (by simpa using h)
  rcases List.mem_map.mp hmem with ⟨e, he, rfl⟩
  refine scanTokensFrom_prop
    (Q := fun t => t.length = 4 ∧ t.toList.headD ' ' = '0') ?_ _ _ _ _ _ he
  intro cs' t' k' hm'
  rw [matchRevenueAt] at hm'
  split_ifs at hm' with hcond
  · simp only [Option.some.injEq, Prod.mk.injEq] at hm'
    rw [← hm'.1]
    exact ⟨by simpa using hcond.1, by simpa using hcond.2.1⟩

/-- Elements of the `valid_cpts` list come from the candidate list or the
accumulator. -/
theorem buildValidCpts_mem (cs : List Char) :
    ∀ l acc x, x ∈ buildValidCpts cs l acc → x ∈ l ∨ x ∈ acc := by
  intro l
  induction l with
  | nil => intro acc x hx; right; simpa [buildValidCpts] using hx
  | cons code rest ih =>
    intro acc x hx
    rw [buildValidCpts] at hx
    split_ifs at hx
    · rcases ih _ _ hx with h | h
      · exact Or.inl (List.mem_cons_of_mem _ h)
      · exact Or.inr h
    · rcases ih _ _ hx with h | h
      · exact Or.inl (List.mem_cons_of_mem _ h)
      · rcases List.mem_append.mp h with h | h
        · exact Or.inr h
        · simp only [List.mem_singleton] at h
          exact Or.inl (h ▸ List.mem_cons_self _ _)
    · rcases ih _ _ hx with h | h
      · exact Or.inl (List.mem_cons_of_mem _ h)
      · rcases List.mem_cons.mp h with h | h
        · exact Or.inl (h ▸ List.mem_cons_self _ _)
        · exact Or.inr h

/-- When the `valid_cpts` loop ends empty, the accumulator was empty and
every candidate was discarded by the phone-number-context filter. -/
theorem buildValidCpts_nil (cs : List Char) :
    ∀ l acc, buildValidCpts cs l acc = [] →
      acc = [] ∧ ∀ x ∈ l, phoneContext cs x = true := by
  intro l
  induction l with
  | nil => intro acc h; exact ⟨by simpa [buildValidCpts] using h, by simp⟩
  | cons code rest ih =>
    intro acc h
    rw [buildValidCpts] at h
    split_ifs at h with h1 h2
    · rcases ih _ h with ⟨ha, hall⟩
      refine ⟨ha, ?_⟩
      intro x hx
      rcases List.mem_cons.mp hx with rfl | hx
      · exact h1
      · exact hall x hx
    · rcases ih _ h with ⟨ha, _⟩
      simp at ha
    · rcases ih _ h with ⟨ha, _⟩
      simp at ha

/-- Claim C6 (amended): whenever the text contains a letter-plus-4-digit
(HCPCS) token, the disambiguator returns one of those tokens (so HCPCS
outranks any 5-digit token); and a 4-digit code beginning with zero
(revenue code) is returned only when no HCPCS token is present and every
5-digit token has been discarded by the phone-number-context filter.  (As
stated — revenue only when no 5-digit code is *present* — the claim fails,
because the filter can discard a present 5-digit token.) -/
theorem extract_code_priority (text : String) :
    (scanHcpcs text.toList ≠ [] →
      ∃ c ∈ scanHcpcs text.toList, extract_code text = some c) ∧
    (∀ c, extract_code text = some c → c.length = 4 → c.toList.headD ' ' = '0' →
      scanHcpcs text.toList = [] ∧
      ∀ cpt ∈ scanCpt5 text.toList, phoneContext text.toList cpt = true) := by
  constructor
  · intro hne
    rcases hsc : scanHcpcs text.toList with _ | ⟨c0, rest⟩
    · exact absurd hsc hne
    · rcases hf : (c0 :: rest).find? (fun code =>
        ¬containsSub ("(" ++ code ++ ")").toList text.toList) with _ | c
      · refine ⟨c0, by simp [hsc], ?_⟩
        simp only [extract_code]
        rw [hsc]
        show some ((List.find? (fun code =>
          ¬containsSub ("(" ++ code ++ ")").toList text.toList) (c0 :: rest)).getD c0) = some c0
        rw [hf]
        rfl
      · refine ⟨c, by simp [hsc, List.mem_of_find?_eq_some hf], ?_⟩
        simp only [extract_code]
        rw [hsc]
        show some ((List.find? (fun code =>
          ¬containsSub ("(" ++ code ++ ")").toList text.toList) (c0 :: rest)).getD c0) = some c
        rw [hf]
        rfl
  · intro c hc hlen hzero
    rcases hsc : scanHcpcs text.toList with _ | ⟨c0, rest⟩
    · simp only [extract_code] at hc
      rw [hsc] at hc
      rcases hbv : buildValidCpts text.toList (scanCpt5 text.toList) [] with _ | ⟨v, vs⟩
      · rw [hbv] at hc
        exact ⟨rfl, (buildValidCpts_nil text.toList _ _ hbv).2⟩
      · rw [hbv] at hc
        simp only [Option.some.injEq] at hc
        rcases buildValidCpts_mem text.toList _ _ v (hbv ▸ List.mem_cons_self v vs) with h | h
        · have h5 := scanCpt5_length text.toList v h
          rw [← hc] at hlen
          omega
        · simp at h
    · simp only [extract_code] at hc
      rw [hsc] at hc
      simp only [Option.some.injEq] at hc
      have hmem : c ∈ scanHcpcs text.toList := by
        rw [hsc]
        rcases hf : (c0 :: rest).find? (fun code =>
          ¬containsSub ("(" ++ code ++ ")").toList text.toList) with _ | cf
        · rw [hf] at hc
          simp only [Option.getD] at hc
          exact hc ▸ List.mem_cons_self _ _
        · rw [hf] at hc
          simp only [Option.getD] at hc
          exact hc ▸ List.mem_of_find?_eq_some hf
      have := scanHcpcs_length text.toList c hmem
      omega

/-- Witness for C6: `"J1234 99213"` yields an HCPCS token, and
`"0250 room"` yields the revenue code with no HCPCS and no 5-digit
tokens. -/
theorem extract_code_priority_witness :
    scanHcpcs ("J1234 99213".toList) ≠ [] ∧
    (∃ c ∈ scanHcpcs ("J1234 99213".toList), extract_code "J1234 99213" = some c) ∧
    (scanHcpcs ("0250 room".toList) = [] ∧
      ∀ cpt ∈ scanCpt5 ("0250 room".toList),
        phoneContext ("0250 room".toList) cpt = true) :=
  ⟨by decide, (extract_code_priority "J1234 99213").1 (by decide),
   (extract_code_priority "0250 room").2 "0250" (by decide) (by decide) (by decide)⟩

/-- Counterexample for C6 as stated: `"5551234567 12345 0250"` contains
the 5-digit token `12345`, yet `extract_code` returns the revenue code
`0250` — the phone-number-context filter discards `12345` because its
first occurrence sits inside the phone number `5551234567`. -/
theorem extract_code_revenue_cx :
    extract_code "5551234567 12345 0250" = some "0250" ∧
    scanCpt5 ("5551234567 12345 0250".toList) = ["12345"] := by
  decide

/-- The merge loop never shrinks the accumulated list. -/
theorem mergeLoop_length_le :
    ∀ (extra acc : List LineItem) (seen : List ℚ),
      acc.length ≤ (mergeLoop acc seen extra).length := by
  intro extra
  induction extra with
  | nil => intro acc seen; simp [mergeLoop]
  | cons it rest ih =>
    intro acc seen
    rw [mergeLoop]
    split_ifs
    · exact ih acc seen
    · calc acc.length ≤ (acc ++ [it]).length := by simp
        _ ≤ _ := ih _ _

/-- The merge loop keeps every already-accumulated item. -/
theorem mergeLoop_mem_mono :
    ∀ (extra acc : List LineItem) (seen : List ℚ) (y : LineItem),
      y ∈ acc → y ∈ mergeLoop acc seen extra := by
  intro extra
  induction extra with
  | nil => intro acc seen y hy; simpa [mergeLoop] using hy
  | cons it rest ih =>
    intro acc seen y hy
    rw [mergeLoop]
    split_ifs
    · exact ih acc seen y hy
    · exact ih _ _ y (List.mem_append_left _ hy)

/-- After the merge loop, the amount of every candidate item is present,
provided every seen amount already was. -/
theorem mergeLoop_amount_covered :
    ∀ (extra acc : List LineItem) (seen : List ℚ),
      (∀ q ∈ seen, ∃ y ∈ acc, y.amount = q) →
      ∀ it ∈ extra, ∃ y ∈ mergeLoop acc seen extra, y.amount = it.amount := by
  intro extra
  induction extra with
  | nil => intro acc seen _ it hit; simp at hit
  | cons it0 rest ih =>
    intro acc seen hinv it hit
    rw [mergeLoop]
    split_ifs with hseen
    · rcases List.mem_cons.mp hit with rfl | hit
      · rcases hinv it.amount (by simpa using hseen) with ⟨y, hy, hamt⟩
        exact ⟨y, mergeLoop_mem_mono rest acc seen y hy, hamt⟩
      · exact ih acc seen hinv it hit
    · have hinv' : ∀ q ∈ it0.amount :: seen, ∃ y ∈ acc ++ [it0], y.amount = q := by
        intro q hq
        rcases List.mem_cons.mp hq with rfl | hq
        · exact ⟨it0, List.mem_append_right _ (List.mem_singleton_self _), rfl⟩
        · rcases hinv q hq with ⟨y, hy, hamt⟩
          exact ⟨y, List.mem_append_left _ hy, hamt⟩
      rcases List.mem_cons.mp hit with rfl | hit
      · exact ⟨it, mergeLoop_mem_mono rest _ _ it
          (List.mem_append_right _ (List.mem_singleton_self _)), rfl⟩
      · exact ih _ _ hinv' it hit

/-- An empty merge result means both inputs were empty. -/
theorem merge_by_amount_eq_nil (base extra : List LineItem)
    (h : merge_by_amount base extra = []) : base = [] ∧ extra = [] := by
  have hb : base = [] := by
    have hle := mergeLoop_length_le extra base (base.map (·.amount))
    rw [merge_by_amount] at h
    rw [h] at hle
    simpa using List.length_eq_zero.mp (Nat.le_zero.mp (by simpa using hle))
  subst hb
  rcases extra with _ | ⟨it, rest⟩
  · exact ⟨rfl, rfl⟩
  · rw [merge_by_amount, mergeLoop] at h
    simp only [List.map_nil, List.contains_nil, Bool.false_eq_true, if_false] at h
    have hle := mergeLoop_length_le rest [it] [it.amount]
    rw [show ([it] : List LineItem) = [] ++ [it] from rfl, h] at hle
    simp at hle

/-- The sort produces a list sorted by descending amount. -/
theorem sortByAmountDesc_sorted (l : List LineItem) :
    (sortByAmountDesc l).Sorted (fun i j => j.amount ≤ i.amount) := by
  haveI : IsTotal LineItem (fun i j => j.amount ≤ i.amount) :=
    ⟨fun a b => le_total b.amount a.amount⟩
  haveI : IsTrans LineItem (fun i j => j.amount ≤ i.amount) :=
    ⟨fun _ _ _ h1 h2 => le_trans h2 h1⟩
  exact List.sorted_insertionSort _ l

/-- The sort preserves length. -/
theorem sortByAmountDesc_length (l : List LineItem) :
    (sortByAmountDesc l).length = l.length :=
  (List.perm_insertionSort _ l).length_eq

/-- The sort preserves membership. -/
theorem sortByAmountDesc_mem (l : List LineItem) (y : LineItem) (hy : y ∈ l) :
    y ∈ sortByAmountDesc l :=
  (List.perm_insertionSort _ l).mem_iff.mpr hy

/-- Claim C2 (amended): for every input document (modelled by the three
per-strategy yields), the extractor's result is non-empty; it is sorted by
descending amount whenever at least one strategy yields an item, but when
every strategy yields nothing the fixed demonstration set is returned in
its literal (unsorted) order — the claim's unconditional sortedness fails
on that path. -/
theorem extract_nonempty_sorted (t x a : List LineItem) :
    extract_pipeline t x a ≠ [] ∧
    (¬(t = [] ∧ x = [] ∧ a = []) →
      (extract_pipeline t x a).Sorted (fun i j => j.amount ≤ i.amount)) ∧
    (t = [] ∧ x = [] ∧ a = [] → extract_pipeline t x a = get_mock_line_items) := by
  by_cases hall : t = [] ∧ x = [] ∧ a = []
  · rcases hall with ⟨rfl, rfl, rfl⟩
    refine ⟨?_, fun h => absurd ⟨rfl, rfl, rfl⟩ h, fun _ => rfl⟩
    intro h
    simp [extract_pipeline, merge_by_amount, mergeLoop, get_mock_line_items] at h
  · have h3 : ¬((if (if t.length < 5 then merge_by_amount t x else t).length < 10
        then merge_by_amount (if t.length < 5 then merge_by_amount t x else t) a
        else (if t.length < 5 then merge_by_amount t x else t)) = []) := by
      intro hnil
      split_ifs at hnil with h1 h2 h2
      · rcases merge_by_amount_eq_nil _ _ hnil with ⟨h12, ha⟩
        rcases merge_by_amount_eq_nil _ _ h12 with ⟨ht, hx⟩
        exact hall ⟨ht, hx, ha⟩
      · rw [hnil] at h2
        simp at h2
      · rcases merge_by_amount_eq_nil _ _ hnil with ⟨ht, ha⟩
        rw [ht] at h1
        simp at h1
      · rw [hnil] at h1
        simp at h1
    have hne : (extract_pipeline t x a) =
        sortByAmountDesc (if (if t.length < 5 then merge_by_amount t x else t).length < 10
          then merge_by_amount (if t.length < 5 then merge_by_amount t x else t) a
          else (if t.length < 5 then merge_by_amount t x else t)) := by
      simp only [extract_pipeline]
      rw [if_neg (by simpa using h3)]
    refine ⟨?_, fun _ => ?_, fun h => absurd h hall⟩
    · rw [hne]
      intro hsort
      apply h3
      have := sortByAmountDesc_length (if (if t.length < 5 then merge_by_amount t x
          else t).length < 10
        then merge_by_amount (if t.length < 5 then merge_by_amount t x else t) a
        else (if t.length < 5 then merge_by_amount t x else t))
      rw [hsort] at this
      exact List.length_eq_zero.mp this.symm
    · rw [hne]
      exact sortByAmountDesc_sorted _

/-- A sample line item. -/
def xrayItem : LineItem := { code := none, description := "Chest X-ray", quantity := 1, amount := 250 }

/-- Witness for C2: one table item, no text or aggressive items. -/
theorem extract_nonempty_sorted_witness :
    extract_pipeline [xrayItem] [] [] ≠ [] ∧
    ¬(([xrayItem] : List LineItem) = [] ∧ ([] : List LineItem) = [] ∧
      ([] : List LineItem) = []) ∧
    (extract_pipeline [xrayItem] [] []).Sorted (fun i j => j.amount ≤ i.amount) :=
  ⟨(extract_nonempty_sorted [xrayItem] [] []).1, by decide,
   (extract_nonempty_sorted [xrayItem] [] []).2.1 (by decide)⟩

/-- Counterexample for C2 as stated: when every strategy yields nothing
the extractor returns the fixed demonstration set unsorted (amounts 150,
45, 75, 250, 25) because the source returns `get_mock_line_items()` before
the sort. -/
theorem extract_fallback_unsorted_cx :
    extract_pipeline [] [] [] = get_mock_line_items ∧
    ¬(extract_pipeline [] [] []).Sorted (fun i j => j.amount ≤ i.amount) := by
  constructor
  · rfl
  · decide

/-- Claim C7 (amended): the targeted text-pattern strategy always runs,
and — **when the table strategy produced fewer than 5 items** (the
amendment: the merge is gated on the prior yield count) — every item it
finds has its exact decimal amount represented in the extractor's result
(deduplication key is the exact decimal amount). -/
theorem text_items_merged (t x a : List LineItem) (hlen : t.length < 5) :
    ∀ it ∈ x, ∃ y ∈ extract_pipeline t x a, y.amount = it.amount := by
  intro it hit
  have hinv : ∀ q ∈ t.map (·.amount), ∃ y ∈ t, y.amount = q := by
    intro q hq
    rcases List.mem_map.mp hq with ⟨y, hy, rfl⟩
    exact ⟨y, hy, rfl⟩
  rcases mergeLoop_amount_covered x t (t.map (·.amount)) hinv it hit with ⟨y, hy2, hamt⟩
  have hy2' : y ∈ merge_by_amount t x := hy2
  have hy3 : y ∈ (if (if t.length < 5 then merge_by_amount t x else t).length < 10
      then merge_by_amount (if t.length < 5 then merge_by_amount t x else t) a
      else (if t.length < 5 then merge_by_amount t x else t)) := by
    rw [if_pos hlen]
    split_ifs
    · exact mergeLoop_mem_mono a _ _ y hy2'
    · exact hy2'
  refine ⟨y, ?_, hamt⟩
  simp only [extract_pipeline]
  rw [if_neg ?hne]
  case hne =>
    simp only [List.isEmpty_eq_true]
    rw [if_pos hlen] at hy3
    intro hnil
    rw [if_pos hlen] at hnil
    rw [hnil] at hy3
    simp at hy3
  rw [if_pos hlen]
  rw [if_pos hlen] at hy3
  exact sortByAmountDesc_mem _ y hy3

/-- Witness for C7: no table items, one text item. -/
theorem text_items_merged_witness :
    (([] : List LineItem).length < 5) ∧
    xrayItem ∈ [xrayItem] ∧
    ∃ y ∈ extract_pipeline [] [xrayItem] [], y.amount = xrayItem.amount :=
  ⟨by decide, by decide, text_items_merged [] [xrayItem] [] (by decide) xrayItem (by decide)⟩

/-- Five table items with amounts 10-14. -/
def fiveTableItems : List LineItem :=
  [{ code := none, description := "Table item 1", quantity := 1, amount := 10 },
   { code := none, description := "Table item 2", quantity := 1, amount := 11 },
   { code := none, description := "Table item 3", quantity := 1, amount := 12 },
   { code := none, description := "Table item 4", quantity := 1, amount := 13 },
   { code := none, description := "Table item 5", quantity := 1, amount := 14 }]

/-- A text-strategy item with the fresh amount 100. -/
def imagingTextItem : LineItem :=
  { code := none, description := "Imaging study", quantity := 1, amount := 100 }

/-- Counterexample for C7 as stated: with 5 items already collected from
tables, a text item with a fresh amount (100, not present among the table
amounts) is *not* merged into the result — the merge only happens when
fewer than 5 items came from tables. -/
theorem text_merge_gated_cx :
    fiveTableItems.length = 5 ∧
    (100 : ℚ) ∉ fiveTableItems.map (·.amount) ∧
    imagingTextItem.amount = 100 ∧
    ∀ y ∈ extract_pipeline fiveTableItems [imagingTextItem] [], y.amount ≠ 100 := by
  refine ⟨rfl, by decide, rfl, ?_⟩
  decide


/-- The per-item invariant of the extractor. -/
def itemOk (it : LineItem) : Prop := 0 < it.amount ∧ 1 ≤ it.quantity

/-- Any item produced by `guardedItem` has amount above 1 and quantity 1. -/
theorem guardedItem_ok (code : Option String) (descr : String) (amount : Option ℚ)
    (it : LineItem) (h : guardedItem code descr amount = some it) : itemOk it := by
  rcases amount with _ | a
  · simp [guardedItem] at h
  · rw [guardedItem] at h
    split_ifs at h with h2
    simp only [Option.some.injEq] at h
    subst h
    exact ⟨lt_trans (by norm_num) h2, le_refl 1⟩

/-- Any item produced by `mergedCellBuild` satisfies the invariant. -/
theorem mergedCellBuild_ok (p : List Char × ℚ) (it : LineItem)
    (h : mergedCellBuild p = some it) : itemOk it := by
  rw [mergedCellBuild] at h
  split_ifs at h with h1 h2
  simp only [Option.some.injEq] at h
  subst h
  exact ⟨lt_trans (by norm_num) h2, le_refl 1⟩

/-- Any item produced by `mergedDescPartBuild` satisfies the invariant. -/
theorem mergedDescPartBuild_ok (amounts : List ℚ) (e : ℕ × List Char) (it : LineItem)
    (h : mergedDescPartBuild amounts e = some it) : itemOk it := by
  rw [mergedDescPartBuild] at h
  split_ifs at h with h1
  exact guardedItem_ok _ _ _ _ h

/-- Any item produced by `codeSegmentBuild` satisfies the invariant. -/
theorem codeSegmentBuild_ok (cell_text : List Char) (code_matches : List (String × ℕ))
    (amountsP : List (ℚ × ℕ)) (e : ℕ × String × ℕ) (it : LineItem)
    (h : codeSegmentBuild cell_text code_matches amountsP e = some it) : itemOk it := by
  rw [codeSegmentBuild] at h
  exact guardedItem_ok _ _ _ _ h

/-- Every item of `split_merged_cell` satisfies the invariant. -/
theorem split_merged_cell_inv (cell : List Char) :
    ∀ it ∈ split_merged_cell cell, itemOk it := by
  intro it hit
  rcases List.mem_filterMap.mp hit with ⟨p, _, hfm⟩
  exact mergedCellBuild_ok p it hfm

/-- Every item of `split_merged_descriptions` satisfies the invariant. -/
theorem split_merged_descriptions_inv (cells : List (List Char)) :
    ∀ it ∈ split_merged_descriptions cells, itemOk it := by
  intro it hit
  rw [split_merged_descriptions] at hit
  split_ifs at hit
  · simp at hit
  · rcases List.mem_filterMap.mp hit with ⟨e, _, hfm⟩
    exact mergedDescPartBuild_ok _ e it hfm

/-- Every item of `split_by_codes` satisfies the invariant. -/
theorem split_by_codes_inv (cell : List Char) :
    ∀ it ∈ split_by_codes cell, itemOk it := by
  intro it hit
  rw [split_by_codes] at hit
  split_ifs at hit
  · simp at hit
  · rcases List.mem_filterMap.mp hit with ⟨e, _, hfm⟩
    exact codeSegmentBuild_ok _ _ _ e it hfm

/-- The amount selected by `rowAmountSearch` is above 1. -/
theorem rowAmountSearch_pos (cells : List (List Char)) (r : ℚ × ℕ)
    (h : rowAmountSearch cells = some r) : 1 < r.1 := by
  rcases List.exists_of_findSome?_eq_some h with ⟨e, _, hfe⟩
  split at hfe
  · split_ifs at hfe with hrange
    simp only [Option.some.injEq] at hfe
    rw [← hfe]
    exact hrange.1
  · simp at hfe

/-- Any item produced by `parse_table_row` satisfies the invariant. -/
theorem parse_table_row_ok (row : List (Option String)) (it : LineItem)
    (h : parse_table_row row = some it) : itemOk it := by
  rw [parse_table_row] at h
  by_cases h2 : ((row.map (fun c => match c with
      | some s => pyStrip s.toList
      | none => ([] : List Char))).filter (· ≠ [])).length < 2
  · rw [if_pos h2] at h
    simp at h
  · rw [if_neg h2] at h
    split at h
    · simp at h
    · rename_i amt idx hfs
      have hgt : 1 < amt := rowAmountSearch_pos _ _ hfs
      simp only [] at h
      split_ifs at h <;>
        (try simp only [Option.some.injEq] at h) <;>
        (have h' := h.symm
         subst h'
         exact ⟨lt_trans (by norm_num) hgt, le_refl 1⟩)

/-- Every item of the merged-cell split dispatcher satisfies the invariant. -/
theorem splitTrigger_inv (cells : List (List Char)) :
    ∀ (todo : List (List Char)) (items : List LineItem),
      splitTrigger cells todo = some items → ∀ it ∈ items, itemOk it := by
  intro todo
  induction todo with
  | nil => intro items h; simp [splitTrigger] at h
  | cons cell rest ih =>
    intro items h
    rw [splitTrigger] at h
    split_ifs at h with h1 h2 h3 h4
    · exact ih items h
    · simp only [Option.some.injEq] at h
      exact h ▸ split_merged_cell_inv cell
    · simp only [Option.some.injEq] at h
      exact h ▸ split_merged_descriptions_inv cells
    · simp only [Option.some.injEq] at h
      exact h ▸ split_by_codes_inv cell
    · exact ih items h

/-- Every item of `parse_table_row_with_split` satisfies the invariant. -/
theorem parse_table_row_with_split_inv (row : List (Option String)) :
    ∀ it ∈ parse_table_row_with_split row, itemOk it := by
  intro it hit
  rw [parse_table_row_with_split] at hit
  split at hit
  · rename_i items htr
    exact splitTrigger_inv _ _ _ htr it hit
  · split at hit
    · rename_i item hp
      simp only [List.mem_singleton] at hit
      exact hit ▸ parse_table_row_ok row item hp
    · simp at hit

/-- A fold whose step preserves an invariant preserves it overall. -/
theorem foldl_preserve {α σ : Type} (step : σ → α → σ) (Inv : σ → Prop)
    (hstep : ∀ s x, Inv s → Inv (step s x)) :
    ∀ (l : List α) (s : σ), Inv s → Inv (l.foldl step s) := by
  intro l
  induction l with
  | nil => intro s hs; simpa using hs
  | cons x xs ih =>
    intro s hs
    rw [List.foldl_cons]
    exact ih _ (hstep s x hs)

/-- Appending one good item preserves the invariant. -/
theorem appended_item_ok (items : List LineItem) (it0 : LineItem)
    (h : ∀ it ∈ items, itemOk it) (h0 : itemOk it0) :
    ∀ it ∈ items ++ [it0], itemOk it := by
  intro it hit
  rcases List.mem_append.mp hit with hit | hit
  · exact h it hit
  · simp only [List.mem_singleton] at hit
    exact hit ▸ h0

/-- One step of the text-pattern strategy preserves the invariant. -/
theorem textLineStep_inv (acc : List LineItem × List (List Char)) (rawLine : List Char)
    (hInv : ∀ it ∈ acc.1, itemOk it) :
    ∀ it ∈ (textLineStep acc rawLine).1, itemOk it := by
  rw [textLineStep]
  split_ifs with hshort hskip
  · exact hInv
  · exact hInv
  · rcases hp1 : p1Go [] (pyStrip rawLine) with _ | ⟨d, v⟩ <;>
      rcases hp2 : pattern2Match (pyStrip rawLine) with _ | ⟨code, d2, v2⟩ <;>
      simp only [hp1, hp2] <;>
      (try split_ifs) <;>
      first
      | exact hInv
      | exact appended_item_ok _ _ hInv ⟨lt_trans one_pos (by tauto), le_refl 1⟩
      | exact appended_item_ok _ _
          (appended_item_ok _ _ hInv ⟨lt_trans one_pos (by tauto), le_refl 1⟩)
          ⟨lt_trans one_pos (by tauto), le_refl 1⟩

/-- Every item of `extract_from_text` satisfies the invariant. -/
theorem extract_from_text_inv (text : String) :
    ∀ it ∈ extract_from_text text, itemOk it := by
  rw [extract_from_text]
  exact foldl_preserve textLineStep (fun s => ∀ it ∈ s.1, itemOk it)
    (fun s x hs => textLineStep_inv s x hs) (splitLines text.toList) ([], [])
    (by intro it hit; simp at hit)

/-- One step of the aggressive strategy preserves the invariant. -/
theorem aggressiveLineStep_inv (acc : List LineItem × List ℚ) (rawLine : List Char)
    (hInv : ∀ it ∈ acc.1, itemOk it) :
    ∀ it ∈ (aggressiveLineStep acc rawLine).1, itemOk it := by
  rw [aggressiveLineStep]
  split_ifs with hshort hskip
  · exact hInv
  · exact hInv
  · rcases hl : (findAmounts (pyStrip rawLine)).getLast? with _ | amount <;>
      simp only [hl] <;>
      (try split_ifs) <;>
      first
      | exact hInv
      | exact appended_item_ok _ _ hInv ⟨lt_trans one_pos (by tauto), le_refl 1⟩

/-- Every item of `extract_from_text_aggressive` satisfies the invariant. -/
theorem extract_from_text_aggressive_inv (text : String) :
    ∀ it ∈ extract_from_text_aggressive text, itemOk it := by
  rw [extract_from_text_aggressive]
  exact foldl_preserve aggressiveLineStep (fun s => ∀ it ∈ s.1, itemOk it)
    (fun s x hs => aggressiveLineStep_inv s x hs) (splitLines text.toList) ([], [])
    (by intro it hit; simp at hit)

/-- Every item of the fixed fallback set satisfies the invariant. -/
theorem get_mock_ok : ∀ it ∈ get_mock_line_items, itemOk it := by
  intro it hit
  simp only [get_mock_line_items, List.mem_cons, List.not_mem_nil, or_false] at hit
  rcases hit with h | h | h | h | h <;> subst h <;> exact ⟨by norm_num, le_refl 1⟩

/-- Members of the merge loop come from the base list or the candidates. -/
theorem mergeLoop_mem_of :
    ∀ (extra acc : List LineItem) (seen : List ℚ) (y : LineItem),
      y ∈ mergeLoop acc seen extra → y ∈ acc ∨ y ∈ extra := by
  intro extra
  induction extra with
  | nil => intro acc seen y hy; rw [mergeLoop] at hy; exact Or.inl hy
  | cons it rest ih =>
    intro acc seen y hy
    rw [mergeLoop] at hy
    split_ifs at hy
    · rcases ih acc seen y hy with h | h
      · exact Or.inl h
      · exact Or.inr (List.mem_cons_of_mem _ h)
    · rcases ih _ _ y hy with h | h
      · rcases List.mem_append.mp h with h | h
        · exact Or.inl h
        · simp only [List.mem_singleton] at h
          exact Or.inr (h ▸ List.mem_cons_self _ _)
      · exact Or.inr (List.mem_cons_of_mem _ h)

/-- The amount-keyed merge preserves the invariant. -/
theorem merge_by_amount_inv (base extra : List LineItem)
    (hb : ∀ it ∈ base, itemOk it) (he : ∀ it ∈ extra, itemOk it) :
    ∀ it ∈ merge_by_amount base extra, itemOk it := by
  intro it hit
  rw [merge_by_amount] at hit
  rcases mergeLoop_mem_of extra base (base.map (·.amount)) it hit with h | h
  · exact hb it h
  · exact he it h

/-- The whole pipeline preserves the invariant of its three inputs. -/
theorem extract_pipeline_inv (t x a : List LineItem)
    (ht : ∀ it ∈ t, itemOk it) (hx : ∀ it ∈ x, itemOk it) (ha : ∀ it ∈ a, itemOk it) :
    ∀ it ∈ extract_pipeline t x a, itemOk it := by
  have h2 : ∀ it ∈ (if t.length < 5 then merge_by_amount t x else t), itemOk it := by
    split_ifs
    · exact merge_by_amount_inv _ _ ht hx
    · exact ht
  set li2 := if t.length < 5 then merge_by_amount t x else t with hli2
  have h3 : ∀ it ∈ (if li2.length < 10 then merge_by_amount li2 a else li2), itemOk it := by
    split_ifs
    · exact merge_by_amount_inv _ _ h2 ha
    · exact h2
  set li3 := if li2.length < 10 then merge_by_amount li2 a else li2 with hli3
  intro it hit
  rw [extract_pipeline] at hit
  simp only [← hli2, ← hli3] at hit
  split_ifs at hit
  · exact get_mock_ok it hit
  · exact h3 it ((List.perm_insertionSort _ li3).mem_iff.mp hit)

/-- Claim C9: every LineItem produced by any path of the extractor — the
table strategy with its merged-cell splits (`parse_table_row_with_split`),
the text-pattern strategy, the aggressive strategy, the fixed fallback
set, and the assembled pipeline `extract_line_items_regex` — has
amount > 0 and quantity >= 1. -/
theorem extractor_item_invariants (row : List (Option String)) (text : String)
    (tableRows : List (List (Option String))) (full_text : String) :
    (∀ it ∈ parse_table_row_with_split row, 0 < it.amount ∧ 1 ≤ it.quantity) ∧
    (∀ it ∈ extract_from_text text, 0 < it.amount ∧ 1 ≤ it.quantity) ∧
    (∀ it ∈ extract_from_text_aggressive text, 0 < it.amount ∧ 1 ≤ it.quantity) ∧
    (∀ it ∈ get_mock_line_items, 0 < it.amount ∧ 1 ≤ it.quantity) ∧
    (∀ it ∈ extract_line_items_regex tableRows full_text, 0 < it.amount ∧ 1 ≤ it.quantity) := by
  refine ⟨parse_table_row_with_split_inv row, extract_from_text_inv text,
    extract_from_text_aggressive_inv text, get_mock_ok, ?_⟩
  intro it hit
  simp only [extract_line_items_regex] at hit
  refine extract_pipeline_inv _ _ _ ?_ (extract_from_text_inv _)
    (extract_from_text_aggressive_inv _) it hit
  exact foldl_preserve _ (fun s => ∀ it ∈ s, itemOk it)
    (fun s r hs => by
      split_ifs
      · intro it hit
        rcases List.mem_append.mp hit with h | h
        · exact hs it h
        · exact parse_table_row_with_split_inv r it h
      · exact hs) tableRows [] (by intro it hit; simp at hit)

/-- Witness for C9: the invariant holds for the first fallback item, via
the fallback conjunct of the claim theorem at concrete inputs. -/
theorem extractor_item_invariants_witness :
    0 < ({ code := some "99213",
           description := "Office/outpatient visit, established patient",
           quantity := 1, amount := 150 } : LineItem).amount ∧
    1 ≤ ({ code := some "99213",
           description := "Office/outpatient visit, established patient",
           quantity := 1, amount := 150 } : LineItem).quantity :=
  (extractor_item_invariants [] "" [] "").2.2.2.1 _ (by decide)

end BillCheck
